import Mathlib

/-!
Shallow embedding of the rustjava core (bytecode decoder and JVM interpreter)
together with proofs about its behaviour.

Source layout notes.
The repository's interpreter (`src/jvm.rs`), class-file parser
(`src/class_file_parser.rs`) and constant-pool model (`src/java_class.rs`)
are embedded below.  The crate root that re-exports `Instruction`,
`Operator`, `Primitive`, `PrimitiveType` and `Comparison` (used via
`use crate::{..}` by `jvm.rs` and `class_file_parser.rs`) is not part of the
available sources; the shape of those enums is fully determined by their
uses in the available files, and the bodies of the few helper functions
that live in that crate root (`Primitive::eval2`, `Primitive::eval`,
`Primitive::is_type`, `Primitive::compare_to_zero`,
`Primitive::integer_compare`, `Primitive::pretty_print`,
`PrimitiveType::from_type_id`, and the Option-returning constant-pool
resolvers) are modelled from the specification; each such definition
carries a doc comment saying so.

Representation conventions.
Rust `Vec` used as a stack (push/pop at the end) is embedded as a Lean
`List` whose HEAD is the top of the stack (the vector's last element);
the call stack `stack_frames` likewise has the current (= last pushed)
frame at the head.  The heap and the per-frame array table, which are
indexed from the front, keep the vector's order (`push` appends at the
end).  Rust panics (index out of bounds, `unwrap` on `None`, arithmetic
overflow in checked builds) are embedded as `Except.error`.  `usize`
arithmetic that can wrap is taken modulo `2 ^ 64`; `i32`/`i64` arithmetic
wraps two's-complement, matching the wrapping integer semantics the
specification prescribes for the interpreter.
-/

namespace RustJava

/-- Two's-complement wrap of an unbounded integer into the `i32` range. -/
def wrap32 (x : Int) : Int := (x + 2 ^ 31) % 2 ^ 32 - 2 ^ 31

/-- Two's-complement wrap of an unbounded integer into the `i64` range. -/
def wrap64 (x : Int) : Int := (x + 2 ^ 63) % 2 ^ 64 - 2 ^ 63

/-- Rust `as usize` applied to a (possibly negative) integer: the value is
reinterpreted modulo `2 ^ 64`. -/
def toUsize (x : Int) : Nat := (x % 2 ^ 64).toNat

/-- Wrapping `usize` addition (`pc += branch_offset` on release semantics). -/
def usizeAdd (a b : Nat) : Nat := (a + b) % 2 ^ 64

/-- Rust `b as i8` for a byte `b < 256`: two's-complement reinterpretation. -/
def i8ofNat (b : Nat) : Int := if b < 128 then (b : Int) else (b : Int) - 256

/-- The `i16` produced by `((b1 as i16) << 8) | (b2 as i16)` in `u2`
(`src/class_file_parser.rs`): the two's-complement value of the big-endian
byte pair. -/
def i16ofBytes (b1 b2 : Nat) : Int :=
  ((b1 * 256 + b2 : Int) + 2 ^ 15) % 2 ^ 16 - 2 ^ 15

/-- The `i32` produced by shifting and or-ing four bytes in `u4`
(`src/class_file_parser.rs`). -/
def i32ofBytes (b1 b2 b3 b4 : Nat) : Int :=
  ((b1 * 2 ^ 24 + b2 * 2 ^ 16 + b3 * 2 ^ 8 + b4 : Int) + 2 ^ 31) % 2 ^ 32 - 2 ^ 31

/-- Arithmetic (sign-extending) right shift on a two's-complement value:
floor division by a power of two. -/
def sar (i : Int) (j : Nat) : Int := Int.fdiv i (2 ^ j)

/-- Comparison operators of the decoded conditional branches
(crate-root enum; shape as constructed in `src/class_file_parser.rs` and
consumed in `src/jvm.rs`). -/
inductive Comparison where
  | Equal
  | NotEqual
  | LessThan
  | GreaterThan
  | LessThanOrEqual
  | GreaterThanOrEqual
  deriving DecidableEq

/-- Runtime type tags (crate-root enum; spec section 3 lists the variant
set: the value tags plus Boolean and Reference). -/
inductive PrimitiveType where
  | Null
  | Byte
  | Char
  | Short
  | Int
  | Long
  | Float
  | Double
  | Boolean
  | Reference
  deriving DecidableEq

/-- Runtime values (crate-root enum; same variant set as the copy in
`src/bytecode.rs`).  `Float`/`Double` carry their raw IEEE bit pattern as
a `Nat`; floating-point arithmetic itself is not modelled (no claim
exercises it). -/
inductive Primitive where
  | Null
  | Byte (i : Int)
  | Short (i : Int)
  | Int (i : Int)
  | Long (i : Int)
  | Char (c : Nat)
  | Float (bits : Nat)
  | Double (bits : Nat)
  | Boolean (b : Bool)
  | Reference (r : Nat)
  | ReturnAddress (r : Nat)
  deriving DecidableEq

/-- Binary/unary operators passed by `src/jvm.rs` to `Primitive::eval2` /
`Primitive::eval` (crate-root enum; shape determined by those call
sites). -/
inductive Operator where
  | Add
  | Sub
  | Mul
  | Div
  | Rem
  | Neg
  | Shl
  | Shr
  | UShr
  | And
  | Or
  | Xor
  | Convert (source : PrimitiveType) (destination : PrimitiveType)
  deriving DecidableEq

/-- Decoded instructions (crate-root enum; the variant set of
`ReducedInstruction` in `src/bytecode.rs`, with `NewArray`/`ANewArray`
carrying a `PrimitiveType` as constructed in `src/class_file_parser.rs`
and consumed in `src/jvm.rs`). -/
inductive Instruction where
  | Nop
  | AConstNull
  | Const (value : Primitive)
  | LoadConst (index : Nat)
  | Load (index : Nat) (t : PrimitiveType)
  | ALoad (t : PrimitiveType)
  | Store (index : Nat) (t : PrimitiveType)
  | AStore (t : PrimitiveType)
  | Pop
  | Pop2
  | Dup
  | DupX1
  | DupX2
  | Dup2
  | Dup2X1
  | Dup2X2
  | Swap
  | Add (t : PrimitiveType)
  | Sub (t : PrimitiveType)
  | Mul (t : PrimitiveType)
  | Div (t : PrimitiveType)
  | Rem (t : PrimitiveType)
  | Neg (t : PrimitiveType)
  | Shl (t : PrimitiveType)
  | Shr (t : PrimitiveType)
  | UShr (t : PrimitiveType)
  | And (t : PrimitiveType)
  | Or (t : PrimitiveType)
  | Xor (t : PrimitiveType)
  | IInc (index : Nat) (constant : Int)
  | Convert (source : PrimitiveType) (destination : PrimitiveType)
  | LCmp
  | FCmpL
  | FCmpG
  | DCmpL
  | DCmpG
  | If (branchOffset : Nat) (c : Comparison)
  | IfICmp (branchOffset : Nat) (c : Comparison)
  | Goto (branchOffset : Nat)
  | Jsr (branchOffset : Nat)
  | Ret (index : Nat)
  | TableSwitch (a b c : Nat)
  | LookupSwitch (a b c : Nat)
  | Return (t : PrimitiveType)
  | GetStatic (index : Nat)
  | PutStatic (index : Nat)
  | GetField (index : Nat)
  | PutField (index : Nat)
  | InvokeVirtual (index : Nat)
  | InvokeSpecial (index : Nat)
  | InvokeStatic (index : Nat)
  | InvokeInterface (index : Nat)
  | InvokeDynamic (index : Nat)
  | New (index : Nat)
  | NewArray (t : PrimitiveType)
  | ANewArray (t : PrimitiveType)
  | ArrayLength
  | AThrow
  | CheckCast (index : Nat)
  | InstanceOf (index : Nat)
  | MonitorEnter
  | MonitorExit
  | Wide (index : Nat)
  | MultiANewArray (index : Nat) (dimensions : Nat)
  | IfNull (branchOffset : Nat)
  | IfNonNull (branchOffset : Nat)
  | GotoW (branchOffset : Nat)
  | JsrW (branchOffset : Nat)
  | Breakpoint

namespace Primitive

/-- Source: `Primitive::is_wide` in `src/bytecode.rs` (`Long` and `Double`
are the wide / category-2 values). -/
def is_wide : Primitive → Bool
  | .Long _ => true
  | .Double _ => true
  | _ => false

/-- Modelled from the spec: `Primitive::is_type` (crate root, not under
`src/`).  Spec section 3: a value carries its own type tag; operations
check tags at runtime.  The check is tag equality. -/
def is_type (p : Primitive) (t : PrimitiveType) : Bool :=
  match p, t with
  | .Null, .Null => true
  | .Byte _, .Byte => true
  | .Short _, .Short => true
  | .Int _, .Int => true
  | .Long _, .Long => true
  | .Char _, .Char => true
  | .Float _, .Float => true
  | .Double _, .Double => true
  | .Boolean _, .Boolean => true
  | .Reference _, .Reference => true
  | _, _ => false

/-- Modelled from the spec: `Primitive::pretty_print` (crate root, not
under `src/`).  Spec section 6: the intrinsic appends the argument's
decimal representation to the stdout buffer; numeric payloads print in
decimal.  Only the `Int`/`Long` cases are exercised by the theorems
below; `Float`/`Double` print their raw bit payload (floating point is
not modelled). -/
def pretty_print : Primitive → String
  | .Null => "null"
  | .Byte i => toString i
  | .Short i => toString i
  | .Int i => toString i
  | .Long i => toString i
  | .Char c => toString c
  | .Float bits => toString bits
  | .Double bits => toString bits
  | .Boolean b => toString b
  | .Reference r => toString r
  | .ReturnAddress r => toString r

/-- Modelled from the spec: the binary arm of `Primitive::eval2`
(crate root, not under `src/`).  Spec section 4.5: integer operations use
wrapping (two's-complement) semantics; `Div` and `Rem` on integer zero
fail with `ArithmeticError` (errors are values carrying a category name,
section 7).  Shifts take an `Int` count and, per section 9 and the TODO
in the surviving copy in `src/bytecode.rs`, `UShr` forwards to the host's
ARITHMETIC right shift (the sign-extending one); an out-of-range shift
count is a Rust shift-overflow panic, embedded as an error.  Floating
point arithmetic is not modelled and yields an error.  The
per-type-pair arm structure follows the surviving copy of `eval2` in
`src/bytecode.rs`. -/
def eval2 (a b : Primitive) (o : Operator) : Except String Primitive :=
  match o with
  | .Add =>
    match a, b with
    | .Int i, .Int j => .ok (.Int (wrap32 (i + j)))
    | .Long l, .Long j => .ok (.Long (wrap64 (l + j)))
    | .Float _, .Float _ => .error "float arithmetic not modelled"
    | .Double _, .Double _ => .error "float arithmetic not modelled"
    | _, _ => .error "Unsupported operation"
  | .Sub =>
    match a, b with
    | .Int i, .Int j => .ok (.Int (wrap32 (i - j)))
    | .Long l, .Long j => .ok (.Long (wrap64 (l - j)))
    | .Float _, .Float _ => .error "float arithmetic not modelled"
    | .Double _, .Double _ => .error "float arithmetic not modelled"
    | _, _ => .error "Unsupported operation"
  | .Mul =>
    match a, b with
    | .Int i, .Int j => .ok (.Int (wrap32 (i * j)))
    | .Long l, .Long j => .ok (.Long (wrap64 (l * j)))
    | .Float _, .Float _ => .error "float arithmetic not modelled"
    | .Double _, .Double _ => .error "float arithmetic not modelled"
    | _, _ => .error "Unsupported operation"
  | .Div =>
    match a, b with
    | .Int i, .Int j =>
      if j = 0 then .error "ArithmeticError: / by zero"
      else .ok (.Int (wrap32 (Int.tdiv i j)))
    | .Long l, .Long j =>
      if j = 0 then .error "ArithmeticError: / by zero"
      else .ok (.Long (wrap64 (Int.tdiv l j)))
    | .Float _, .Float _ => .error "float arithmetic not modelled"
    | .Double _, .Double _ => .error "float arithmetic not modelled"
    | _, _ => .error "Unsupported operation"
  | .Rem =>
    match a, b with
    | .Int i, .Int j =>
      if j = 0 then .error "ArithmeticError: % by zero"
      else .ok (.Int (wrap32 (Int.tmod i j)))
    | .Long l, .Long j =>
      if j = 0 then .error "ArithmeticError: % by zero"
      else .ok (.Long (wrap64 (Int.tmod l j)))
    | .Float _, .Float _ => .error "float arithmetic not modelled"
    | .Double _, .Double _ => .error "float arithmetic not modelled"
    | _, _ => .error "Unsupported operation"
  | .And =>
    match a, b with
    | .Int i, .Int j => .ok (.Int (Int.land i j))
    | .Long l, .Long j => .ok (.Long (Int.land l j))
    | _, _ => .error "Unsupported operation"
  | .Or =>
    match a, b with
    | .Int i, .Int j => .ok (.Int (Int.lor i j))
    | .Long l, .Long j => .ok (.Long (Int.lor l j))
    | _, _ => .error "Unsupported operation"
  | .Xor =>
    match a, b with
    | .Int i, .Int j => .ok (.Int (Int.xor i j))
    | .Long l, .Long j => .ok (.Long (Int.xor l j))
    | _, _ => .error "Unsupported operation"
  | .Shl =>
    match a, b with
    | .Int i, .Int j =>
      if 0 ≤ j ∧ j < 32 then .ok (.Int (wrap32 (i * 2 ^ j.toNat)))
      else .error "attempt to shift left with overflow"
    | .Long l, .Int j =>
      if 0 ≤ j ∧ j < 64 then .ok (.Long (wrap64 (l * 2 ^ j.toNat)))
      else .error "attempt to shift left with overflow"
    | _, _ => .error "Unsupported operation"
  | .Shr =>
    match a, b with
    | .Int i, .Int j =>
      if 0 ≤ j ∧ j < 32 then .ok (.Int (sar i j.toNat))
      else .error "attempt to shift right with overflow"
    | .Long l, .Int j =>
      if 0 ≤ j ∧ j < 64 then .ok (.Long (sar l j.toNat))
      else .error "attempt to shift right with overflow"
    | _, _ => .error "Unsupported operation"
  | .UShr =>
    match a, b with
    | .Int i, .Int j =>
      if 0 ≤ j ∧ j < 32 then .ok (.Int (sar i j.toNat))
      else .error "attempt to shift right with overflow"
    | .Long l, .Int j =>
      if 0 ≤ j ∧ j < 64 then .ok (.Long (sar l j.toNat))
      else .error "attempt to shift right with overflow"
    | _, _ => .error "Unsupported operation"
  | _ => .error "unsupported operation"

/-- Modelled from the spec: the unary `Primitive::eval` (crate root, not
under `src/`), used by `src/jvm.rs` for `Convert`.  Integer conversions
truncate/extend per spec section 4.5; float conversions are not modelled
(no claim exercises them).  The arm structure follows the surviving copy
of `eval` in `src/bytecode.rs`. -/
def eval (a : Primitive) (o : Operator) : Except String Primitive :=
  match o with
  | .Convert source destination =>
    match a, source with
    | .Int i, .Int =>
      match destination with
      | .Byte => .ok (.Byte (wrap32 ((i + 2 ^ 7) % 2 ^ 8 - 2 ^ 7)))
      | .Short => .ok (.Short ((i + 2 ^ 15) % 2 ^ 16 - 2 ^ 15))
      | .Char => .ok (.Char ((i % 2 ^ 16).toNat))
      | .Long => .ok (.Long i)
      | _ => .error "cannot convert int to passed type"
    | .Long l, .Long =>
      match destination with
      | .Int => .ok (.Int (wrap32 l))
      | _ => .error "cannot convert long to passed type"
    | _, _ => .error "unsupported conversion or incorrect type passed"
  | _ => .error "Unsupported operation"

/-- Modelled from the spec: `Primitive::compare_to_zero` (crate root, not
under `src/`).  Spec section 4.5: `If(offset, cmp)` pops one value and
compares it against zero; a tag mismatch is a type error. -/
def compare_to_zero (p : Primitive) (c : Comparison) : Except String Bool :=
  match p with
  | .Int i =>
    .ok (match c with
      | .Equal => i = 0
      | .NotEqual => i ≠ 0
      | .LessThan => i < 0
      | .GreaterThan => i > 0
      | .LessThanOrEqual => i ≤ 0
      | .GreaterThanOrEqual => i ≥ 0)
  | _ => .error "TypeError: compare to zero expects an int"

/-- Modelled from the spec: `Primitive::integer_compare` (crate root, not
under `src/`).  Spec section 4.5: `IfICmp` pops two ints and compares
them; a tag mismatch is a type error. -/
def integer_compare (a b : Primitive) (c : Comparison) : Except String Bool :=
  match a, b with
  | .Int i, .Int j =>
    .ok (match c with
      | .Equal => i = j
      | .NotEqual => i ≠ j
      | .LessThan => i < j
      | .GreaterThan => i > j
      | .LessThanOrEqual => i ≤ j
      | .GreaterThanOrEqual => i ≥ j)
  | _, _ => .error "TypeError: integer compare expects two ints"

end Primitive

/-- Modelled from the spec: `PrimitiveType::from_type_id` (crate root,
not under `src/`), used by the decoder for `newarray`.  Spec section 4.3:
`newarray` takes a 1-byte atype; the atype table is the standard class
file one. -/
def PrimitiveType.from_type_id (id : Nat) : Option PrimitiveType :=
  match id with
  | 4 => some .Boolean
  | 5 => some .Char
  | 6 => some .Float
  | 7 => some .Double
  | 8 => some .Byte
  | 9 => some .Short
  | 10 => some .Int
  | 11 => some .Long
  | _ => none

/-- Constant pool entries, from `src/java_class.rs` (indices stored as
`usize`; `Float`/`Double` payloads carried as raw bit patterns, and the
`Utf8` payload as a Lean string). -/
inductive ConstantPoolEntry where
  | Utf8 (s : String)
  | Integer (i : Int)
  | Float (bits : Nat)
  | Long (i : Int)
  | Double (bits : Nat)
  | Class (nameIndex : Nat)
  | Str (stringIndex : Nat)
  | FieldRef (classIndex : Nat) (nameAndTypeIndex : Nat)
  | MethodRef (classIndex : Nat) (nameAndTypeIndex : Nat)
  | InterfaceMethodRef (classIndex : Nat) (nameAndTypeIndex : Nat)
  | NameAndType (nameIndex : Nat) (descriptorIndex : Nat)
  | MethodHandle (referenceKind : Nat) (referenceIndex : Nat)
  | MethodType (descriptorIndex : Nat)
  | InvokeDynamic (bootstrapIndex : Nat) (nameAndTypeIndex : Nat)
  deriving DecidableEq

namespace ConstantPoolEntry

/-- Modelled from the spec: the fallible `get_primitive` the interpreter
calls with `?` (crate root, not under `src/`); spec section 4.4
`resolveLoadable`.  The arm structure follows the panicking copy of
`get_primitive` in `src/java_class.rs` (the `Str` constructor embeds the
source's `String` entry). -/
def get_primitive : ConstantPoolEntry → Except String Primitive
  | .Integer i => .ok (.Int i)
  | .Float bits => .ok (.Float bits)
  | .Long l => .ok (.Long l)
  | .Double bits => .ok (.Double bits)
  | .Class r => .ok (.Reference r)
  | .Str r => .ok (.Reference r)
  | .MethodHandle _ r => .ok (.Reference r)
  | .MethodType r => .ok (.Reference r)
  | _ => .error "Unable to convert constant pool entry to loadable primitive"

end ConstantPoolEntry

/-- Modelled from the spec (section 4.4 `resolveClassName`): the
Option-returning `class_parser` of the crate-root `ConstantPoolExt`
(not under `src/`); the arm structure follows the panicking
`ConstantPoolEntry::class_parser` in `src/java_class.rs`
(`Class -> Utf8`, 1-based indices, any failure is `none`). -/
def resolve_class_name (cp : List ConstantPoolEntry) (index : Nat) : Option String :=
  if index = 0 then none else
  match cp.get? (index - 1) with
  | some (.Class nameIndex) =>
    if nameIndex = 0 then none else
    match cp.get? (nameIndex - 1) with
    | some (.Utf8 s) => some s
    | _ => none
  | _ => none

/-- Modelled from the spec (section 4.4 `resolveNameAndType`): the
Option-returning `name_and_type_parser` of the crate-root
`ConstantPoolExt` (not under `src/`); arm structure per the panicking
copy in `src/java_class.rs`. -/
def resolve_name_and_type (cp : List ConstantPoolEntry) (index : Nat) :
    Option (String × String) :=
  if index = 0 then none else
  match cp.get? (index - 1) with
  | some (.NameAndType nameIndex descriptorIndex) =>
    if nameIndex = 0 ∨ descriptorIndex = 0 then none else
    match cp.get? (nameIndex - 1), cp.get? (descriptorIndex - 1) with
    | some (.Utf8 name), some (.Utf8 descriptor) => some (name, descriptor)
    | _, _ => none
  | _ => none

/-- Modelled from the spec (section 4.4 `resolveMethodRef`): the
Option-returning `method_ref_parser` of the crate-root `ConstantPoolExt`
(not under `src/`), used by `InvokeVirtual`/`InvokeSpecial`/
`InvokeStatic` in `src/jvm.rs`; arm structure per the panicking copy in
`src/java_class.rs`. -/
def resolve_method_ref (cp : List ConstantPoolEntry) (index : Nat) :
    Option (String × String × String) :=
  if index = 0 then none else
  match cp.get? (index - 1) with
  | some (.MethodRef classIndex nameAndTypeIndex) =>
    match resolve_class_name cp classIndex, resolve_name_and_type cp nameAndTypeIndex with
    | some className, some (methodName, methodType) => some (className, methodName, methodType)
    | _, _ => none
  | _ => none

/-- Modelled from the spec (section 4.4 `resolveFieldRef`): the
Option-returning `field_ref_parser` of the crate-root `ConstantPoolExt`
(not under `src/`), used by the field instructions in `src/jvm.rs`; arm
structure per the panicking copy in `src/java_class.rs`. -/
def resolve_field_ref (cp : List ConstantPoolEntry) (index : Nat) :
    Option (String × String × String) :=
  if index = 0 then none else
  match cp.get? (index - 1) with
  | some (.FieldRef classIndex nameAndTypeIndex) =>
    match resolve_class_name cp classIndex, resolve_name_and_type cp nameAndTypeIndex with
    | some className, some (fieldName, fieldType) => some (className, fieldName, fieldType)
    | _, _ => none
  | _ => none

/-- Reads `code[i]`; a Rust out-of-bounds index panic becomes an error. -/
def byteAt (code : List Nat) (i : Nat) : Except String Nat :=
  match code.get? i with
  | some b => .ok b
  | none => .error "index out of bounds"

/-- Source: `u1` in `src/class_file_parser.rs`.  Reads the byte after the
opcode at `pc` (`code[pc + 1]`) and yields it as a `usize`. -/
def u1 (code : List Nat) (pc : Nat) : Except String Nat := byteAt code (pc + 1)

/-- Source: `u2` in `src/class_file_parser.rs`.  Reads `code[pc + 1]` and
`code[pc + 2]`, combines them as `((b1 as i16) << 8) | (b2 as i16)` and
casts the SIGNED 16-bit result to `usize` (sign extension modulo
`2 ^ 64`). -/
def u2 (code : List Nat) (pc : Nat) : Except String Nat := do
  let b1 ← byteAt code (pc + 1)
  let b2 ← byteAt code (pc + 2)
  pure (toUsize (i16ofBytes b1 b2))

/-- Source: `u4` in `src/class_file_parser.rs`.  Reads four bytes,
combines them as a signed 32-bit value and casts to `usize` (sign
extension modulo `2 ^ 64`). -/
def u4 (code : List Nat) (pc : Nat) : Except String Nat := do
  let b1 ← byteAt code (pc + 1)
  let b2 ← byteAt code (pc + 2)
  let b3 ← byteAt code (pc + 3)
  let b4 ← byteAt code (pc + 4)
  pure (toUsize (i32ofBytes b1 b2 b3 b4))

/-- Number of operand bytes each opcode consumes beyond the opcode byte
itself, read off the `u1`/`u2`/`u4` calls in `bytes_to_bytecode`
(`src/class_file_parser.rs`): this is how far `pc` advances inside one
loop iteration before the final `pc += 1`. -/
def extraBytes (b : Nat) : Nat :=
  if b = 16 ∨ b = 18 ∨ (21 ≤ b ∧ b ≤ 25) ∨ (54 ≤ b ∧ b ≤ 58) ∨ b = 169 ∨ b = 188 then 1
  else if b = 17 ∨ b = 19 ∨ b = 20 ∨ b = 132 ∨ (153 ≤ b ∧ b ≤ 168) ∨
      (178 ≤ b ∧ b ≤ 187) ∨ b = 189 ∨ b = 192 ∨ b = 193 ∨ b = 198 ∨ b = 199 then 2
  else if b = 200 ∨ b = 201 then 4
  else 0

/-- The per-opcode arm of `bytes_to_bytecode` (`src/class_file_parser.rs`,
the big `match code[pc]`): builds the decoded instruction for opcode `b`
found at offset `pc`, reading operand bytes with `u1`/`u2`/`u4`.  The
source's panics (unsupported opcodes 170, 171, 196, 197 and anything
above 202, and the `unwrap` on `PrimitiveType::from_type_id`) become
errors. -/
def buildInstr (code : List Nat) (pc : Nat) (b : Nat) : Except String Instruction :=
  match b with
  | 0 => .ok .Nop
  | 1 => .ok .AConstNull
  | 2 => .ok (.Const (.Int (-1)))
  | 3 => .ok (.Const (.Int 0))
  | 4 => .ok (.Const (.Int 1))
  | 5 => .ok (.Const (.Int 2))
  | 6 => .ok (.Const (.Int 3))
  | 7 => .ok (.Const (.Int 4))
  | 8 => .ok (.Const (.Int 5))
  | 9 => .ok (.Const (.Long 0))
  | 10 => .ok (.Const (.Long 1))
  | 11 => .ok (.Const (.Float 0))
  | 12 => .ok (.Const (.Float 1065353216))
  | 13 => .ok (.Const (.Float 1073741824))
  | 14 => .ok (.Const (.Double 0))
  | 15 => .ok (.Const (.Double 4607182418800017408))
  | 16 => do let v ← u1 code pc; pure (.Const (.Int (v : Int)))
  | 17 => do let v ← u2 code pc; pure (.Const (.Int (wrap32 (v : Int))))
  | 18 => do let v ← u1 code pc; pure (.LoadConst v)
  | 19 => do let v ← u2 code pc; pure (.LoadConst v)
  | 20 => do let v ← u2 code pc; pure (.LoadConst v)
  | 21 => do let v ← u1 code pc; pure (.Load v .Int)
  | 22 => do let v ← u1 code pc; pure (.Load v .Long)
  | 23 => do let v ← u1 code pc; pure (.Load v .Float)
  | 24 => do let v ← u1 code pc; pure (.Load v .Double)
  | 25 => do let v ← u1 code pc; pure (.Load v .Reference)
  | 26 => .ok (.Load 0 .Int)
  | 27 => .ok (.Load 1 .Int)
  | 28 => .ok (.Load 2 .Int)
  | 29 => .ok (.Load 3 .Int)
  | 30 => .ok (.Load 0 .Long)
  | 31 => .ok (.Load 1 .Long)
  | 32 => .ok (.Load 2 .Long)
  | 33 => .ok (.Load 3 .Long)
  | 34 => .ok (.Load 0 .Float)
  | 35 => .ok (.Load 1 .Float)
  | 36 => .ok (.Load 2 .Float)
  | 37 => .ok (.Load 3 .Float)
  | 38 => .ok (.Load 0 .Double)
  | 39 => .ok (.Load 1 .Double)
  | 40 => .ok (.Load 2 .Double)
  | 41 => .ok (.Load 3 .Double)
  | 42 => .ok (.Load 0 .Reference)
  | 43 => .ok (.Load 1 .Reference)
  | 44 => .ok (.Load 2 .Reference)
  | 45 => .ok (.Load 3 .Reference)
  | 46 => .ok (.ALoad .Int)
  | 47 => .ok (.ALoad .Long)
  | 48 => .ok (.ALoad .Float)
  | 49 => .ok (.ALoad .Double)
  | 50 => .ok (.ALoad .Reference)
  | 51 => .ok (.ALoad .Byte)
  | 52 => .ok (.ALoad .Char)
  | 53 => .ok (.ALoad .Short)
  | 54 => do let v ← u1 code pc; pure (.Store v .Int)
  | 55 => do let v ← u1 code pc; pure (.Store v .Long)
  | 56 => do let v ← u1 code pc; pure (.Store v .Float)
  | 57 => do let v ← u1 code pc; pure (.Store v .Double)
  | 58 => do let v ← u1 code pc; pure (.Store v .Reference)
  | 59 => .ok (.Store 0 .Int)
  | 60 => .ok (.Store 1 .Int)
  | 61 => .ok (.Store 2 .Int)
  | 62 => .ok (.Store 3 .Int)
  | 63 => .ok (.Store 0 .Long)
  | 64 => .ok (.Store 1 .Long)
  | 65 => .ok (.Store 2 .Long)
  | 66 => .ok (.Store 3 .Long)
  | 67 => .ok (.Store 0 .Float)
  | 68 => .ok (.Store 1 .Float)
  | 69 => .ok (.Store 2 .Float)
  | 70 => .ok (.Store 3 .Float)
  | 71 => .ok (.Store 0 .Double)
  | 72 => .ok (.Store 1 .Double)
  | 73 => .ok (.Store 2 .Double)
  | 74 => .ok (.Store 3 .Double)
  | 75 => .ok (.Store 0 .Reference)
  | 76 => .ok (.Store 1 .Reference)
  | 77 => .ok (.Store 2 .Reference)
  | 78 => .ok (.Store 3 .Reference)
  | 79 => .ok (.AStore .Int)
  | 80 => .ok (.AStore .Long)
  | 81 => .ok (.AStore .Float)
  | 82 => .ok (.AStore .Double)
  | 83 => .ok (.AStore .Reference)
  | 84 => .ok (.AStore .Byte)
  | 85 => .ok (.AStore .Char)
  | 86 => .ok (.AStore .Short)
  | 87 => .ok .Pop
  | 88 => .ok .Pop2
  | 89 => .ok .Dup
  | 90 => .ok .DupX1
  | 91 => .ok .DupX2
  | 92 => .ok .Dup2
  | 93 => .ok .Dup2X1
  | 94 => .ok .Dup2X2
  | 95 => .ok .Swap
  | 96 => .ok (.Add .Int)
  | 97 => .ok (.Add .Long)
  | 98 => .ok (.Add .Float)
  | 99 => .ok (.Add .Double)
  | 100 => .ok (.Sub .Int)
  | 101 => .ok (.Sub .Long)
  | 102 => .ok (.Sub .Float)
  | 103 => .ok (.Sub .Double)
  | 104 => .ok (.Mul .Int)
  | 105 => .ok (.Mul .Long)
  | 106 => .ok (.Mul .Float)
  | 107 => .ok (.Mul .Double)
  | 108 => .ok (.Div .Int)
  | 109 => .ok (.Div .Long)
  | 110 => .ok (.Div .Float)
  | 111 => .ok (.Div .Double)
  | 112 => .ok (.Rem .Int)
  | 113 => .ok (.Rem .Long)
  | 114 => .ok (.Rem .Float)
  | 115 => .ok (.Rem .Double)
  | 116 => .ok (.Neg .Int)
  | 117 => .ok (.Neg .Long)
  | 118 => .ok (.Neg .Float)
  | 119 => .ok (.Neg .Double)
  | 120 => .ok (.Shl .Int)
  | 121 => .ok (.Shl .Long)
  | 122 => .ok (.Shr .Int)
  | 123 => .ok (.Shr .Long)
  | 124 => .ok (.UShr .Int)
  | 125 => .ok (.UShr .Long)
  | 126 => .ok (.And .Int)
  | 127 => .ok (.And .Long)
  | 128 => .ok (.Or .Int)
  | 129 => .ok (.Or .Long)
  | 130 => .ok (.Xor .Int)
  | 131 => .ok (.Xor .Long)
  | 132 => do
    let index ← u1 code pc
    let constant ← u1 code (pc + 1)
    pure (.IInc index (i8ofNat constant))
  | 133 => .ok (.Convert .Int .Long)
  | 134 => .ok (.Convert .Int .Float)
  | 135 => .ok (.Convert .Int .Double)
  | 136 => .ok (.Convert .Long .Int)
  | 137 => .ok (.Convert .Long .Float)
  | 138 => .ok (.Convert .Long .Double)
  | 139 => .ok (.Convert .Float .Int)
  | 140 => .ok (.Convert .Float .Long)
  | 141 => .ok (.Convert .Float .Double)
  | 142 => .ok (.Convert .Double .Int)
  | 143 => .ok (.Convert .Double .Long)
  | 144 => .ok (.Convert .Double .Float)
  | 145 => .ok (.Convert .Int .Byte)
  | 146 => .ok (.Convert .Int .Char)
  | 147 => .ok (.Convert .Int .Short)
  | 148 => .ok .LCmp
  | 149 => .ok .FCmpL
  | 150 => .ok .FCmpG
  | 151 => .ok .DCmpL
  | 152 => .ok .DCmpG
  | 153 => do let v ← u2 code pc; pure (.If v .Equal)
  | 154 => do let v ← u2 code pc; pure (.If v .NotEqual)
  | 155 => do let v ← u2 code pc; pure (.If v .LessThan)
  | 156 => do let v ← u2 code pc; pure (.If v .GreaterThanOrEqual)
  | 157 => do let v ← u2 code pc; pure (.If v .GreaterThan)
  | 158 => do let v ← u2 code pc; pure (.If v .LessThanOrEqual)
  | 159 => do let v ← u2 code pc; pure (.IfICmp v .Equal)
  | 160 => do let v ← u2 code pc; pure (.IfICmp v .NotEqual)
  | 161 => do let v ← u2 code pc; pure (.IfICmp v .LessThan)
  | 162 => do let v ← u2 code pc; pure (.IfICmp v .GreaterThanOrEqual)
  | 163 => do let v ← u2 code pc; pure (.IfICmp v .GreaterThan)
  | 164 => do let v ← u2 code pc; pure (.IfICmp v .LessThanOrEqual)
  | 165 => do let v ← u2 code pc; pure (.IfICmp v .Equal)
  | 166 => do let v ← u2 code pc; pure (.IfICmp v .NotEqual)
  | 167 => do let v ← u2 code pc; pure (.Goto v)
  | 168 => do let v ← u2 code pc; pure (.Jsr v)
  | 169 => do let v ← u1 code pc; pure (.Ret v)
  | 170 => .error "Unsupported instruction: 170"
  | 171 => .error "Unsupported instruction: 171"
  | 172 => .ok (.Return .Int)
  | 173 => .ok (.Return .Long)
  | 174 => .ok (.Return .Float)
  | 175 => .ok (.Return .Double)
  | 176 => .ok (.Return .Reference)
  | 177 => .ok (.Return .Null)
  | 178 => do let v ← u2 code pc; pure (.GetStatic v)
  | 179 => do let v ← u2 code pc; pure (.PutStatic v)
  | 180 => do let v ← u2 code pc; pure (.GetField v)
  | 181 => do let v ← u2 code pc; pure (.PutField v)
  | 182 => do let v ← u2 code pc; pure (.InvokeVirtual v)
  | 183 => do let v ← u2 code pc; pure (.InvokeSpecial v)
  | 184 => do let v ← u2 code pc; pure (.InvokeStatic v)
  | 185 => do let v ← u2 code pc; pure (.InvokeInterface v)
  | 186 => do let v ← u2 code pc; pure (.InvokeDynamic v)
  | 187 => do let v ← u2 code pc; pure (.New v)
  | 188 => do
    let v ← u1 code pc
    match PrimitiveType.from_type_id v with
    | some t => pure (.NewArray t)
    | none => .error "called unwrap on a None value"
  | 189 => do
    let v ← u2 code pc
    match PrimitiveType.from_type_id v with
    | some t => pure (.ANewArray t)
    | none => .error "called unwrap on a None value"
  | 190 => .ok .ArrayLength
  | 191 => .ok .AThrow
  | 192 => do let v ← u2 code pc; pure (.CheckCast v)
  | 193 => do let v ← u2 code pc; pure (.InstanceOf v)
  | 194 => .ok .MonitorEnter
  | 195 => .ok .MonitorExit
  | 196 => .error "Unsupported instruction: 196"
  | 197 => .error "Unsupported instruction: 197"
  | 198 => do let v ← u2 code pc; pure (.IfNull v)
  | 199 => do let v ← u2 code pc; pure (.IfNonNull v)
  | 200 => do let v ← u4 code pc; pure (.Goto v)
  | 201 => do let v ← u4 code pc; pure (.Jsr v)
  | 202 => .ok .Breakpoint
  | _ => .error "unsupported instruction"

/-- One iteration of the decoding loop: reads the opcode at `pc`, checks
that its operand bytes are in range (reading past the end is the source's
index-out-of-bounds panic) and builds the decoded instruction together
with the number of operand bytes it consumed. -/
def decodeOp (code : List Nat) (pc : Nat) : Except String (Instruction × Nat) :=
  match code.get? pc with
  | none => .error "index out of bounds"
  | some b =>
    if pc + extraBytes b < code.length then
      match buildInstr code pc b with
      | .ok i => .ok (i, extraBytes b)
      | .error e => .error e
    else .error "index out of bounds"

/-- The `while pc < code.len()` loop of `bytes_to_bytecode`
(`src/class_file_parser.rs`): pushes the decoded instruction, then one
`Nop` for every operand byte consumed (`for _ in past_byte_pos..pc`),
then advances `pc += 1`.  The loop consumes at least one byte per
iteration, so `fuel = code.length` is always sufficient; the fuel-zero
arm is unreachable whenever `code.length ≤ pc + fuel`. -/
def decodeLoop (code : List Nat) : Nat → Nat → Except String (List Instruction)
  | pc, 0 => if pc < code.length then .error "out of fuel" else .ok []
  | pc, fuel + 1 =>
    if pc < code.length then
      match decodeOp code pc with
      | .error e => .error e
      | .ok (i, extra) =>
        match decodeLoop code (pc + 1 + extra) fuel with
        | .error e => .error e
        | .ok rest => .ok (i :: (List.replicate extra Instruction.Nop ++ rest))
    else .ok []

/-- Source: `bytes_to_bytecode` in `src/class_file_parser.rs`. -/
def bytes_to_bytecode (code : List Nat) : Except String (List Instruction) :=
  decodeLoop code 0 code.length

/-- Source: `Method` in `src/jvm.rs`. -/
structure Method where
  instructions : List Instruction

/-- Source: `StackFrame` in `src/jvm.rs`.  The operand `stack` is the
Rust vector with its last element (= top of stack) at the list head;
`locals` and `arrays` keep the vector order. -/
structure StackFrame where
  pc : Nat
  locals : List Primitive
  arrays : List (List Primitive)
  stack : List Primitive
  method : Method
  class_name : String

/-- Source: `Class` in `src/jvm.rs`; the two hash maps are embedded as
association lists. -/
structure Class where
  name : String
  constant_pool : List ConstantPoolEntry
  static_fields : List (String × Primitive)
  methods : List (String × Method)

/-- Source: `Object` in `src/jvm.rs`. -/
structure Object where
  class_name : String
  fields : List (String × Primitive)

/-- Source: `Jvm` in `src/jvm.rs`.  `stack_frames` has the current
(last pushed) frame at the list head; the heap keeps the vector order so
a `Reference(index)` is a plain index from the front. -/
structure Jvm where
  class_area : List (String × Class)
  heap : List Object
  stack_frames : List StackFrame
  stdout : String

/-- `HashMap::insert`: replace the binding for `k` if present (keeping
its position), append it otherwise. -/
def insertAssoc {β : Type} (k : String) (v : β) : List (String × β) → List (String × β)
  | [] => [(k, v)]
  | (k₂, v₂) :: rest => if k₂ = k then (k, v) :: rest else (k₂, v₂) :: insertAssoc k v rest

/-- `Vec::resize(n, v)`: grow with copies of `v` (the only use sites grow;
shrinking truncates, as in Rust). -/
def vecResize (l : List Primitive) (n : Nat) (v : Primitive) : List Primitive :=
  if n ≤ l.length then l.take n else l ++ List.replicate (n - l.length) v

namespace StackFrame

/-- Source: `StackFrame::pop_primitive` in `src/jvm.rs`. -/
def pop_primitive (sf : StackFrame) : Except String (Primitive × StackFrame) :=
  match sf.stack with
  | [] => .error "Stack is empty"
  | p :: rest => .ok (p, { sf with stack := rest })

/-- Source: `StackFrame::pop_int` in `src/jvm.rs`. -/
def pop_int (sf : StackFrame) : Except String (Int × StackFrame) := do
  let (p, sf) ← sf.pop_primitive
  match p with
  | .Int i => pure (i, sf)
  | _ => .error "Expected int when popping from stack"

/-- Source: `StackFrame::pop_long` in `src/jvm.rs`. -/
def pop_long (sf : StackFrame) : Except String (Int × StackFrame) := do
  let (p, sf) ← sf.pop_primitive
  match p with
  | .Long i => pure (i, sf)
  | _ => .error "Expected long when popping from stack"

/-- Source: `StackFrame::pop_ref` in `src/jvm.rs`. -/
def pop_ref (sf : StackFrame) : Except String (Nat × StackFrame) := do
  let (p, sf) ← sf.pop_primitive
  match p with
  | .Reference r => pure (r, sf)
  | _ => .error "Expected reference when popping from stack"

/-- Source: `StackFrame::math` in `src/jvm.rs`: pop `value2` then
`value1`, check `value1` against the operand type, push
`eval2(value1, value2, o)`. -/
def math (sf : StackFrame) (operand_type : PrimitiveType) (o : Operator) :
    Except String StackFrame := do
  let (value2, sf) ← sf.pop_primitive
  let (value1, sf) ← sf.pop_primitive
  if ¬ value1.is_type operand_type then
    .error "mismatched operand type for stack frame math function"
  else do
    let r ← Primitive.eval2 value1 value2 o
    pure { sf with stack := r :: sf.stack }

end StackFrame

/-- The `for _i in 0..n { method_parameters.push(curr_sf.pop_primitive()?) }`
loop of the invoke arms in `src/jvm.rs`: pops `n` values, returning them
in pop order together with the remaining stack. -/
def popN : Nat → List Primitive → Except String (List Primitive × List Primitive)
  | 0, s => .ok ([], s)
  | _ + 1, [] => .error "Stack is empty"
  | n + 1, p :: rest =>
    match popN n rest with
    | .error e => .error e
    | .ok (ps, s) => .ok (p :: ps, s)

/-- The `.split(')').get(0).len()` computation of the invoke arms in
`src/jvm.rs`: length of the descriptor segment before the first closing
parenthesis. -/
def paramSegLen (descriptor : String) : Nat :=
  (descriptor.data.takeWhile (· ≠ ')')).length

/-- The arms of `Jvm::step` (`src/jvm.rs`) that read and write only the
current stack frame.  Arms that fall through to the trailing `pc += 1`
return the frame with `pc` already incremented; branch arms set `pc`
directly (`pc += branch_offset` is the wrapping `usize` addition).  The
instructions handled at the `Jvm` level (`LoadConst`, `Return`, field,
invoke and `New` instructions) never reach this function; they and the
genuinely unsupported instructions fall into the source's catch-all
`Err("Unsupported instruction")`. -/
def stepFrame (instruction : Instruction) (sf : StackFrame) : Except String StackFrame :=
  match instruction with
  | .Nop => .ok { sf with pc := sf.pc + 1 }
  | .AConstNull => .ok { sf with stack := .Null :: sf.stack, pc := sf.pc + 1 }
  | .Const value => .ok { sf with stack := value :: sf.stack, pc := sf.pc + 1 }
  | .Load index _type_to_load =>
    match sf.locals.get? index with
    | none => .error "called unwrap on a None value"
    | some v => .ok { sf with stack := v :: sf.stack, pc := sf.pc + 1 }
  | .ALoad _stored_type => do
    let (index, sf) ← sf.pop_int
    let (array_ref, sf) ← sf.pop_ref
    match sf.arrays.get? array_ref with
    | none => .error "array not found"
    | some array =>
      match array.get? (toUsize index) with
      | none => .error "called unwrap on a None value"
      | some value => .ok { sf with stack := value :: sf.stack, pc := sf.pc + 1 }
  | .Store index _type_to_store => do
    let locals₁ := if sf.locals.length ≤ index then vecResize sf.locals (index + 1) .Null
      else sf.locals
    let (v, sf) ← { sf with locals := locals₁ }.pop_primitive
    pure { sf with locals := sf.locals.set index v, pc := sf.pc + 1 }
  | .AStore _stored_type => do
    let (value, sf) ← sf.pop_primitive
    let (index, sf) ← sf.pop_int
    let (array_ref, sf) ← sf.pop_ref
    match sf.arrays.get? array_ref with
    | none => .error "array not found"
    | some array =>
      let ix := toUsize index
      let array₁ := if array.length ≤ ix then vecResize array (ix + 1) .Null else array
      pure { sf with arrays := sf.arrays.set array_ref (array₁.set ix value), pc := sf.pc + 1 }
  | .Pop => .ok { sf with stack := sf.stack.tail, pc := sf.pc + 1 }
  | .Pop2 => do
    let (v, sf) ← sf.pop_primitive
    if ¬ v.is_wide then pure { sf with stack := sf.stack.tail, pc := sf.pc + 1 }
    else pure { sf with pc := sf.pc + 1 }
  | .Dup => do
    let (value, sf) ← sf.pop_primitive
    pure { sf with stack := value :: value :: sf.stack, pc := sf.pc + 1 }
  | .DupX1 => do
    let (value2, sf) ← sf.pop_primitive
    let (value1, sf) ← sf.pop_primitive
    pure { sf with stack := value2 :: value1 :: value2 :: sf.stack, pc := sf.pc + 1 }
  | .DupX2 => do
    let (value3, sf) ← sf.pop_primitive
    let (value2, sf) ← sf.pop_primitive
    let (value1, sf) ← sf.pop_primitive
    pure { sf with stack := value3 :: value2 :: value1 :: value3 :: sf.stack, pc := sf.pc + 1 }
  | .Dup2 => do
    let (value2, sf) ← sf.pop_primitive
    let (value1, sf) ← sf.pop_primitive
    pure { sf with stack := value2 :: value1 :: value2 :: value1 :: sf.stack, pc := sf.pc + 1 }
  | .Dup2X1 => do
    let (value3, sf) ← sf.pop_primitive
    let (value2, sf) ← sf.pop_primitive
    let (value1, sf) ← sf.pop_primitive
    pure { sf with stack := value3 :: value2 :: value1 :: value3 :: value2 :: sf.stack,
                   pc := sf.pc + 1 }
  | .Dup2X2 => do
    let (value4, sf) ← sf.pop_primitive
    let (value3, sf) ← sf.pop_primitive
    let (value2, sf) ← sf.pop_primitive
    let (value1, sf) ← sf.pop_primitive
    pure { sf with stack :=
      value4 :: value3 :: value2 :: value1 :: value4 :: value3 :: sf.stack, pc := sf.pc + 1 }
  | .Swap => do
    let (top, sf) ← sf.pop_primitive
    let (second, sf) ← sf.pop_primitive
    pure { sf with stack := second :: top :: sf.stack, pc := sf.pc + 1 }
  | .Add operand_type => do
    let sf ← sf.math operand_type .Add
    pure { sf with pc := sf.pc + 1 }
  | .Sub operand_type => do
    let sf ← sf.math operand_type .Sub
    pure { sf with pc := sf.pc + 1 }
  | .Mul operand_type => do
    let sf ← sf.math operand_type .Mul
    pure { sf with pc := sf.pc + 1 }
  | .Div operand_type => do
    let sf ← sf.math operand_type .Div
    pure { sf with pc := sf.pc + 1 }
  | .Rem operand_type => do
    let sf ← sf.math operand_type .Rem
    pure { sf with pc := sf.pc + 1 }
  | .Neg operand_type => do
    let sf ← sf.math operand_type .Neg
    pure { sf with pc := sf.pc + 1 }
  | .Shl operand_type => do
    let sf ← sf.math operand_type .Shl
    pure { sf with pc := sf.pc + 1 }
  | .Shr operand_type => do
    let sf ← sf.math operand_type .Shr
    pure { sf with pc := sf.pc + 1 }
  | .UShr operand_type => do
    let sf ← sf.math operand_type .UShr
    pure { sf with pc := sf.pc + 1 }
  | .And operand_type => do
    let sf ← sf.math operand_type .And
    pure { sf with pc := sf.pc + 1 }
  | .Or operand_type => do
    let sf ← sf.math operand_type .Or
    pure { sf with pc := sf.pc + 1 }
  | .Xor operand_type => do
    let sf ← sf.math operand_type .Xor
    pure { sf with pc := sf.pc + 1 }
  | .IInc index constant =>
    match sf.locals.get? index with
    | none => .error "called unwrap on a None value"
    | some v => do
      let r ← Primitive.eval2 v (.Int constant) .Add
      pure { sf with locals := sf.locals.set index r, pc := sf.pc + 1 }
  | .Convert start_type end_type => do
    let (v, sf) ← sf.pop_primitive
    let converted ← v.eval (.Convert start_type end_type)
    pure { sf with stack := converted :: sf.stack, pc := sf.pc + 1 }
  | .LCmp => do
    let (second, sf) ← sf.pop_long
    let (first, sf) ← sf.pop_long
    let d := wrap64 (first - second)
    let result : Int := if d = 0 then 0 else if d > 0 then 1 else -1
    pure { sf with stack := .Int result :: sf.stack, pc := sf.pc + 1 }
  | .If branch_offset comparator => do
    let (v, sf) ← sf.pop_primitive
    let taken ← v.compare_to_zero comparator
    if taken then pure { sf with pc := usizeAdd sf.pc branch_offset }
    else pure { sf with pc := sf.pc + 1 }
  | .IfICmp branch_offset comparator => do
    let (value2, sf) ← sf.pop_primitive
    let (value1, sf) ← sf.pop_primitive
    let taken ← value1.integer_compare value2 comparator
    if taken then pure { sf with pc := usizeAdd sf.pc branch_offset }
    else pure { sf with pc := sf.pc + 1 }
  | .Goto branch_offset => .ok { sf with pc := usizeAdd sf.pc branch_offset }
  | .Jsr branch_offset =>
    .ok { sf with stack := .Reference (sf.pc + 1) :: sf.stack,
                  pc := usizeAdd sf.pc branch_offset }
  | .Ret index =>
    match sf.locals.get? index with
    | none => .error "called unwrap on a None value"
    | some (.Reference x) => .ok { sf with pc := x }
    | some _ => .error "Invalid return address"
  | .NewArray _a_type => do
    let (count, sf) ← sf.pop_int
    if count < 0 then .error "capacity overflow"
    else
      let new_array_ref := sf.arrays.length
      pure { sf with arrays := sf.arrays ++ [[]],
                     stack := .Reference new_array_ref :: sf.stack, pc := sf.pc + 1 }
  | .ANewArray _a_type => do
    let (count, sf) ← sf.pop_int
    if count < 0 then .error "capacity overflow"
    else
      let new_array_ref := sf.arrays.length
      pure { sf with arrays := sf.arrays ++ [[]],
                     stack := .Reference new_array_ref :: sf.stack, pc := sf.pc + 1 }
  | .ArrayLength => do
    let (array_ref, sf) ← sf.pop_ref
    match sf.arrays.get? array_ref with
    | none => .error "called unwrap on a None value"
    | some array =>
      pure { sf with stack := .Int (wrap32 (array.length : Int)) :: sf.stack, pc := sf.pc + 1 }
  | .IfNull branch_offset => do
    let (v, sf) ← sf.pop_primitive
    if v.is_type .Null then pure { sf with pc := usizeAdd sf.pc branch_offset }
    else pure { sf with pc := sf.pc + 1 }
  | .IfNonNull branch_offset => do
    let (v, sf) ← sf.pop_primitive
    if ¬ v.is_type .Null then pure { sf with pc := usizeAdd sf.pc branch_offset }
    else pure { sf with pc := sf.pc + 1 }
  | _ => .error "Unsupported instruction"

/-- Source: `Jvm::step` in `src/jvm.rs`.  Reads the instruction at the
current frame's `pc` and dispatches; the frame-local arms are in
`stepFrame`, the arms that touch the class area, the heap, stdout or the
frame stack are inlined here. -/
def Jvm.step (jvm : Jvm) : Except String Jvm :=
  match jvm.stack_frames with
  | [] => .error "No stack frames"
  | curr_sf :: rest =>
    match curr_sf.method.instructions.get? curr_sf.pc with
    | none => .error "No instruction at current pc"
    | some instruction =>
      match instruction with
      | .LoadConst index =>
        match (jvm.class_area.lookup curr_sf.class_name) with
        | none => .error "called unwrap on a None value"
        | some cls =>
          if index = 0 then .error "attempt to subtract with overflow"
          else
            match cls.constant_pool.get? (index - 1) with
            | none => .error "called unwrap on a None value"
            | some entry =>
              match entry.get_primitive with
              | .error e => .error e
              | .ok v =>
                .ok { jvm with stack_frames :=
                  { curr_sf with stack := v :: curr_sf.stack, pc := curr_sf.pc + 1 } :: rest }
      | .Return expected_return_type =>
        if expected_return_type = .Null then
          .ok { jvm with stack_frames := rest }
        else
          match curr_sf.pop_primitive with
          | .error e => .error e
          | .ok (return_value, _sf) =>
            if ¬ return_value.is_type expected_return_type then
              .error "Attempted to return an invalid type"
            else
              match rest with
              | [] => .ok { jvm with stack_frames := [] }
              | caller :: rest₂ =>
                .ok { jvm with stack_frames :=
                  { caller with stack := return_value :: caller.stack } :: rest₂ }
      | .GetStatic index =>
        match jvm.class_area.lookup curr_sf.class_name with
        | none => .error "called unwrap on a None value"
        | some cls =>
          match resolve_field_ref cls.constant_pool index with
          | none => .error "Invalid static field reference for GetStatic"
          | some (class_name, field_name, _field_type) =>
            match jvm.class_area.lookup class_name with
            | some target =>
              match target.static_fields.lookup field_name with
              | none => .error "called unwrap on a None value"
              | some value =>
                .ok { jvm with stack_frames :=
                  { curr_sf with stack := value :: curr_sf.stack, pc := curr_sf.pc + 1 } :: rest }
            | none =>
              if class_name = "java/lang/System" then
                .ok { jvm with stack_frames := { curr_sf with pc := curr_sf.pc + 1 } :: rest }
              else
                .error ("Unable to find static field " ++ class_name ++ "." ++ field_name)
      | .PutStatic index =>
        match curr_sf.pop_primitive with
        | .error e => .error e
        | .ok (value, sf) =>
          match jvm.class_area.lookup sf.class_name with
          | none => .error "called unwrap on a None value"
          | some cls =>
            match resolve_field_ref cls.constant_pool index with
            | none => .error "Invalid static field reference for PutStatic"
            | some (class_name, field_name, _field_type) =>
              match jvm.class_area.lookup class_name with
              | none => .error "Unable to find class"
              | some ca =>
                .ok { jvm with
                  class_area := insertAssoc class_name
                    { ca with static_fields := insertAssoc field_name value ca.static_fields }
                    jvm.class_area,
                  stack_frames := { sf with pc := sf.pc + 1 } :: rest }
      | .GetField index =>
        match curr_sf.pop_ref with
        | .error e => .error e
        | .ok (object, sf) =>
          match jvm.class_area.lookup sf.class_name with
          | none => .error "called unwrap on a None value"
          | some cls =>
            match resolve_field_ref cls.constant_pool index with
            | none => .error "Invalid field reference for GetField"
            | some (_class_name, field_name, _field_type) =>
              match jvm.heap.get? object with
              | none => .error "called unwrap on a None value"
              | some obj =>
                match obj.fields.lookup field_name with
                | none => .error "called unwrap on a None value"
                | some field =>
                  .ok { jvm with stack_frames :=
                    { sf with stack := field :: sf.stack, pc := sf.pc + 1 } :: rest }
      | .PutField index =>
        match curr_sf.pop_primitive with
        | .error e => .error e
        | .ok (value, sf₁) =>
          match sf₁.pop_ref with
          | .error e => .error e
          | .ok (reference, sf) =>
            match jvm.class_area.lookup sf.class_name with
            | none => .error "called unwrap on a None value"
            | some cls =>
              match resolve_field_ref cls.constant_pool index with
              | none => .error "Invalid field reference for PutField"
              | some (_class_name, field_name, _field_type) =>
                match jvm.heap.get? reference with
                | none => .error "called unwrap on a None value"
                | some obj =>
                  .ok { jvm with
                    heap := jvm.heap.set reference
                      { obj with fields := insertAssoc field_name value obj.fields },
                    stack_frames := { sf with pc := sf.pc + 1 } :: rest }
      | .InvokeVirtual index | .InvokeSpecial index =>
        match jvm.class_area.lookup curr_sf.class_name with
        | none => .error "called unwrap on a None value"
        | some cls =>
          match resolve_method_ref cls.constant_pool index with
          | none => .error "Method reference not found for InvokeVirtual"
          | some (class_name, method_name, method_descriptor) =>
            match jvm.class_area.lookup class_name with
            | none =>
              if method_name = "println" then
                match curr_sf.stack with
                | [] => .error "Stack is empty"
                | value :: s =>
                  .ok { jvm with
                    stdout := jvm.stdout ++ value.pretty_print,
                    stack_frames :=
                      { curr_sf with stack := s.tail, pc := curr_sf.pc + 1 } :: rest }
              else
                .ok { jvm with stack_frames :=
                  { curr_sf with stack := curr_sf.stack.tail, pc := curr_sf.pc + 1 } :: rest }
            | some target =>
              match target.methods.lookup (method_name ++ method_descriptor) with
              | none => .error "called unwrap on a None value"
              | some method =>
                if paramSegLen method_descriptor = 0 then
                  .error "attempt to subtract with overflow"
                else
                  match popN (paramSegLen method_descriptor - 1) curr_sf.stack with
                  | .error e => .error e
                  | .ok (params, s₁) =>
                    match s₁ with
                    | [] => .error "Stack is empty"
                    | receiver :: s₂ =>
                      .ok { jvm with stack_frames :=
                        { pc := 0, locals := (params ++ [receiver]).reverse, arrays := [],
                          stack := [], method := method, class_name := class_name } ::
                        { curr_sf with stack := s₂, pc := curr_sf.pc + 1 } :: rest }
      | .InvokeStatic index =>
        match jvm.class_area.lookup curr_sf.class_name with
        | none => .error "called unwrap on a None value"
        | some cls =>
          match resolve_method_ref cls.constant_pool index with
          | none => .error "Could not find method reference for InvokeStatic"
          | some (class_name, method_name, method_descriptor) =>
            match jvm.class_area.lookup class_name with
            | none => .error "called unwrap on a None value"
            | some target =>
              match target.methods.lookup (method_name ++ method_descriptor) with
              | none => .error "called unwrap on a None value"
              | some method =>
                if paramSegLen method_descriptor = 0 then
                  .error "attempt to subtract with overflow"
                else
                  match popN (paramSegLen method_descriptor - 1) curr_sf.stack with
                  | .error e => .error e
                  | .ok (params, s₁) =>
                    .ok { jvm with stack_frames :=
                      { pc := 0, locals := params.reverse, arrays := [],
                        stack := [], method := method, class_name := class_name } ::
                      { curr_sf with stack := s₁, pc := curr_sf.pc + 1 } :: rest }
      | .New index =>
        match jvm.class_area.lookup curr_sf.class_name with
        | none => .error "called unwrap on a None value"
        | some cls =>
          match resolve_class_name cls.constant_pool index with
          | none => .error "called unwrap on a None value"
          | some class_name =>
            let heap₂ := jvm.heap ++ [{ class_name := class_name, fields := [] }]
            .ok { jvm with
              heap := heap₂,
              stack_frames :=
                { curr_sf with stack := .Reference (heap₂.length - 1) :: curr_sf.stack,
                               pc := curr_sf.pc + 1 } :: rest }
      | other =>
        match stepFrame other curr_sf with
        | .error e => .error e
        | .ok sf₂ => .ok { jvm with stack_frames := sf₂ :: rest }

/-- The instruction `Jvm::step` is about to dispatch on: the one at the
current (top) frame's `pc`. -/
def currInstr (jvm : Jvm) : Option Instruction :=
  match jvm.stack_frames with
  | [] => none
  | sf :: _ => sf.method.instructions.get? sf.pc

/-- `OpcodeStart code pc k` says the decoding loop, entered at offset
`pc`, eventually places an opcode's first byte at offset `k`: each step
moves past one opcode byte plus its operand bytes, exactly as the loop's
`pc += 1` after operand reads. -/
inductive OpcodeStart (code : List Nat) : Nat → Nat → Prop where
  | refl (pc : Nat) : OpcodeStart code pc pc
  | step {pc k : Nat} {i : Instruction} {extra : Nat}
      (h : decodeOp code pc = .ok (i, extra))
      (h₂ : OpcodeStart code (pc + 1 + extra) k) : OpcodeStart code pc k

/-- A one-frame interpreter state over an empty class area and heap, used
to evaluate single instructions concretely. -/
def testFrame (pc : Nat) (instrs : List Instruction) (stack : List Primitive) : StackFrame :=
  { pc := pc, locals := [], arrays := [], stack := stack,
    method := { instructions := instrs }, class_name := "Main" }

/-- One-frame `Jvm` around `testFrame`. -/
def testJvm (pc : Nat) (instrs : List Instruction) (stack : List Primitive) : Jvm :=
  { class_area := [], heap := [], stack_frames := [testFrame pc instrs stack], stdout := "" }

/-- The frame after `NewArray(Int)` with count 1: the array table holds
one EMPTY vector (`Vec::with_capacity(1)` has length 0). -/
def c5MidFrame : StackFrame :=
  { pc := 1, locals := [], arrays := [[]], stack := [.Reference 0],
    method := { instructions := [.NewArray .Int, .ArrayLength] }, class_name := "Main" }

/-- The interpreter state around the `NewArray`/`ArrayLength` evaluation
with count 1, after the `NewArray(Int)` step. -/
def c5Mid : Jvm :=
  { class_area := [], heap := [], stack_frames := [c5MidFrame], stdout := "" }

/-- The state after `ArrayLength` on the reference produced by
`NewArray(Int)` with count 1: the pushed length is `Int 0`. -/
def c5Out : Jvm :=
  { class_area := [], heap := [],
    stack_frames := [{ c5MidFrame with pc := 2, stack := [.Int 0] }], stdout := "" }

/-- Constant pool resolving index 6 to the method triple
`java/io/PrintStream`.`println`:`(I)V`. -/
def cpPrintln : List ConstantPoolEntry :=
  [.Utf8 "java/io/PrintStream", .Class 1, .Utf8 "println", .Utf8 "(I)V",
   .NameAndType 3 4, .MethodRef 2 5]

/-- A user class whose constant pool is `cpPrintln`. -/
def mainClassPrintln : Class :=
  { name := "Main", constant_pool := cpPrintln, static_fields := [], methods := [] }

/-- A frame about to execute `InvokeVirtual 6` (resolving to the
`println(I)V` triple) with an `Int 42` argument above a receiver
reference. -/
def printlnFrame : StackFrame :=
  { pc := 0, locals := [], arrays := [], stack := [.Int 42, .Reference 0],
    method := { instructions := [.InvokeVirtual 6] }, class_name := "Main" }

/-- Interpreter state where `java/io/PrintStream` is NOT in the class
area, about to execute the `println` invoke. -/
def printlnJvm : Jvm :=
  { class_area := [("Main", mainClassPrintln)], heap := [],
    stack_frames := [printlnFrame], stdout := "" }

/-- Expected result of stepping `printlnJvm`: the intrinsic consumed the
argument and the receiver, appended "42" and pushed no frame. -/
def printlnJvmOut : Jvm :=
  { printlnJvm with stdout := "42", stack_frames := [{ printlnFrame with stack := [], pc := 1 }] }

/-- A loaded `java/io/PrintStream` class that DOES define
`println(I)V`. -/
def psClassLoaded : Class :=
  { name := "java/io/PrintStream", constant_pool := [], static_fields := [],
    methods := [("println(I)V", { instructions := [.Return .Null] })] }

/-- Interpreter state identical to `printlnJvm` except that
`java/io/PrintStream` IS present in the class area. -/
def c8CexJvm : Jvm :=
  { printlnJvm with class_area := [("Main", mainClassPrintln),
      ("java/io/PrintStream", psClassLoaded)] }

/-- The callee frame the interpreter pushes when `java/io/PrintStream`
is loaded: locals hold the receiver and the argument. -/
def c8CalleeFrame : StackFrame :=
  { pc := 0, locals := [.Reference 0, .Int 42], arrays := [], stack := [],
    method := { instructions := [.Return .Null] }, class_name := "java/io/PrintStream" }

/-- Result of stepping `c8CexJvm`: the interpreter resolves the method on
the loaded class and PUSHES A FRAME, appending nothing to stdout. -/
def c8CexJvmOut : Jvm :=
  { c8CexJvm with stack_frames := [c8CalleeFrame, { printlnFrame with stack := [], pc := 1 }] }

/-- Constant pool resolving index 6 to `Foo`.`println`:`()V` where `Foo`
is never loaded. -/
def cpFooPrintln : List ConstantPoolEntry :=
  [.Utf8 "Foo", .Class 1, .Utf8 "println", .Utf8 "()V", .NameAndType 3 4, .MethodRef 2 5]

/-- A user class whose constant pool is `cpFooPrintln`. -/
def mainClassFoo : Class :=
  { name := "Main", constant_pool := cpFooPrintln, static_fields := [], methods := [] }

/-- A frame about to execute `InvokeVirtual 6` (resolving to the missing
`Foo`.`println`) with an EMPTY operand stack. -/
def c10CexFrame : StackFrame :=
  { pc := 0, locals := [], arrays := [], stack := [],
    method := { instructions := [.InvokeVirtual 6] }, class_name := "Main" }

/-- Interpreter state with a missing owner class, method name `println`
and an EMPTY operand stack. -/
def c10CexJvm : Jvm :=
  { class_area := [("Main", mainClassFoo)], heap := [],
    stack_frames := [c10CexFrame], stdout := "" }

/-- Constant pool resolving index 6 to `Foo`.`bar`:`()V` where `Foo` is
never loaded and the method name is not `println`. -/
def cpFooBar : List ConstantPoolEntry :=
  [.Utf8 "Foo", .Class 1, .Utf8 "bar", .Utf8 "()V", .NameAndType 3 4, .MethodRef 2 5]

/-- A user class whose constant pool is `cpFooBar`. -/
def mainClassFooBar : Class :=
  { name := "Main", constant_pool := cpFooBar, static_fields := [], methods := [] }

/-- A frame about to execute `InvokeVirtual 6` (resolving to the missing
`Foo`.`bar`) with an empty operand stack. -/
def c10WitFrame : StackFrame :=
  { pc := 0, locals := [], arrays := [], stack := [],
    method := { instructions := [.InvokeVirtual 6] }, class_name := "Main" }

/-- Interpreter state for the missing-owner, non-`println` case. -/
def c10WitJvm : Jvm :=
  { class_area := [("Main", mainClassFooBar)], heap := [],
    stack_frames := [c10WitFrame], stdout := "" }

/-- Expected result of stepping `c10WitJvm`: no error, no frame pushed,
nothing printed, the empty stack merely "popped" (a no-op). -/
def c10WitJvmOut : Jvm :=
  { c10WitJvm with stack_frames := [{ c10WitFrame with pc := 1 }] }

/-- One-object heap state about to execute a `Nop`. -/
def heapNopJvm : Jvm :=
  { class_area := [], heap := [{ class_name := "Point", fields := [("x", .Int 30)] }],
    stack_frames := [testFrame 0 [.Nop] []], stdout := "" }

/-- The state after the `Nop` step from `heapNopJvm`. -/
def heapNopJvmOut : Jvm :=
  { heapNopJvm with stack_frames := [testFrame 1 [.Nop] []] }

/-- Instruction sequence ending in a `Goto` whose 2-byte operand
`0xFF 0xFD` decodes (via `u2`) to the displacement `-3`. -/
def c3Instrs : List Instruction :=
  [.Nop, .Nop, .Nop, .Nop, .Nop, .Goto (toUsize (i16ofBytes 255 253))]

/-- C2: whenever the current instruction is `Div` or `Rem` with operand
type `Int` (likewise `Long`) and the divisor popped from the operand
stack is zero, `Jvm::step` fails with an `ArithmeticError` returned as an
error VALUE (an `Except.error` naming the `ArithmeticError` category),
not by panicking or any other side effect.  The divisor is `value2`, the
first value popped (top of stack). -/
theorem c2_div_rem_by_zero_arithmetic_error :
    (∀ (jvm : Jvm) (sf : StackFrame) (rest : List StackFrame) (v : Int) (s : List Primitive),
      jvm.stack_frames = sf :: rest →
      sf.method.instructions.get? sf.pc = some (.Div .Int) →
      sf.stack = .Int 0 :: .Int v :: s →
      jvm.step = .error "ArithmeticError: / by zero") ∧
    (∀ (jvm : Jvm) (sf : StackFrame) (rest : List StackFrame) (v : Int) (s : List Primitive),
      jvm.stack_frames = sf :: rest →
      sf.method.instructions.get? sf.pc = some (.Div .Long) →
      sf.stack = .Long 0 :: .Long v :: s →
      jvm.step = .error "ArithmeticError: / by zero") ∧
    (∀ (jvm : Jvm) (sf : StackFrame) (rest : List StackFrame) (v : Int) (s : List Primitive),
      jvm.stack_frames = sf :: rest →
      sf.method.instructions.get? sf.pc = some (.Rem .Int) →
      sf.stack = .Int 0 :: .Int v :: s →
      jvm.step = .error "ArithmeticError: % by zero") ∧
    (∀ (jvm : Jvm) (sf : StackFrame) (rest : List StackFrame) (v : Int) (s : List Primitive),
      jvm.stack_frames = sf :: rest →
      sf.method.instructions.get? sf.pc = some (.Rem .Long) →
      sf.stack = .Long 0 :: .Long v :: s →
      jvm.step = .error "ArithmeticError: % by zero") := by
  refine ⟨?_, ?_, ?_, ?_⟩ <;>
  · intro jvm sf rest v s h₁ h₂ h₃
    obtain ⟨ca, hp, fr, out⟩ := jvm
    simp only at h₁
    subst h₁
    obtain ⟨pc, lo, ar, st, me, cn⟩ := sf
    simp only at h₂ h₃
    subst h₃
    unfold Jvm.step
    dsimp only
    rw [h₂]
    dsimp only
    rfl

/-- C2 witness: dividing `Int 7` by `Int 0` at a concrete state yields
the `ArithmeticError` error value. -/
theorem c2_witness_div_int_by_zero :
    Jvm.step (testJvm 0 [.Div .Int] [.Int 0, .Int 7]) =
      .error "ArithmeticError: / by zero" :=
  c2_div_rem_by_zero_arithmetic_error.1
    (testJvm 0 [.Div .Int] [.Int 0, .Int 7])
    (testFrame 0 [.Div .Int] [.Int 0, .Int 7]) [] 7 [] rfl rfl rfl

/-- C4: the claim asserts `UShr(Int)` performs a logical (zero-extending)
shift, so that a negative value gets zero vacated bits.  At value `-2`
and shift count `1` the interpreter instead performs the host arithmetic
(sign-extending) shift and pushes `Int (-1)`; a logical shift would push
`Int 2147483647`. -/
theorem c4_ushr_is_arithmetic_on_negative :
    Jvm.step (testJvm 0 [.UShr .Int] [.Int 1, .Int (-2)]) =
      .ok (testJvm 1 [.UShr .Int] [.Int (-1)]) ∧
    (Primitive.Int (-1)) ≠ .Int 2147483647 :=
  ⟨rfl, by decide⟩

/-- C5: the claim asserts `NewArray(t)` with non-negative count `n`
allocates an array of LENGTH `n` (default-filled) so that `ArrayLength`
then pushes `Int n`.  With count 1 the interpreter allocates via
`Vec::with_capacity(1)`, which has length 0: the subsequent `ArrayLength`
pushes `Int 0`, not `Int 1`. -/
theorem c5_newarray_allocates_empty_vector :
    Jvm.step (testJvm 0 [.NewArray .Int, .ArrayLength] [.Int 1]) = .ok c5Mid ∧
    Jvm.step c5Mid = .ok c5Out ∧
    (Primitive.Int 0) ≠ .Int 1 :=
  ⟨rfl, rfl, by decide⟩

/-- C6: the claim asserts `Dup2` on a wide (cat-2) top of stack
duplicates that single wide value, leaving `[Long 5, Long 5, Int 7]`
(top first).  The interpreter instead pops two stack entries and pushes
each twice, producing `[Long 5, Int 7, Long 5, Int 7]`. -/
theorem c6_dup2_ignores_wide_category :
    Jvm.step (testJvm 0 [.Dup2] [.Long 5, .Int 7]) =
      .ok (testJvm 1 [.Dup2] [.Long 5, .Int 7, .Long 5, .Int 7]) ∧
    ([Primitive.Long 5, .Int 7, .Long 5, .Int 7] : List Primitive) ≠
      [.Long 5, .Long 5, .Int 7] :=
  ⟨rfl, by decide⟩

/-- C7: the claim asserts `LCmp` pushes `Int 1` whenever
`value1 > value2`, including extreme `i64` values.  With
`value1 = 2^63 - 1` (pushed first) and `value2 = -2^63` the interpreter
computes `value1 - value2`, which wraps to `-1` in two's complement, and
pushes `Int (-1)` instead of `Int 1` (in a checked build this subtraction
is an overflow panic). -/
theorem c7_lcmp_overflows_on_extremes :
    Jvm.step (testJvm 0 [.LCmp] [.Long (-9223372036854775808), .Long 9223372036854775807]) =
      .ok (testJvm 1 [.LCmp] [.Int (-1)]) ∧
    (9223372036854775807 : Int) > -9223372036854775808 ∧
    (Primitive.Int (-1)) ≠ .Int 1 :=
  ⟨rfl, by decide, by decide⟩

/-- The value `u2` stores for a 2-byte branch operand always lies in the
signed 16-bit range. -/
theorem i16ofBytes_bounds (b1 b2 : Nat) :
    -(2 ^ 15) ≤ i16ofBytes b1 b2 ∧ i16ofBytes b1 b2 < 2 ^ 15 := by
  unfold i16ofBytes
  omega

/-- Wrapping `usize` addition of a sign-extended negative displacement
moves the program counter BACKWARD by the displacement's magnitude,
provided the magnitude does not exceed the counter. -/
theorem usizeAdd_toUsize_neg (pc : Nat) (d : Int) (hlo : -(2 ^ 15) ≤ d) (hneg : d < 0)
    (habs : d.natAbs ≤ pc) (hpc : pc < 2 ^ 64) :
    usizeAdd pc (toUsize d) = pc - d.natAbs := by
  unfold usizeAdd toUsize
  omega

/-- Frame-level effect of `Goto`: the taken branch adds the offset to the
program counter with wrapping `usize` arithmetic. -/
theorem stepFrame_goto (sf : StackFrame) (off : Nat) :
    stepFrame (.Goto off) sf = .ok { sf with pc := usizeAdd sf.pc off } := rfl

/-- Frame-level effect of `Jsr`: pushes the return address `pc + 1` and
branches. -/
theorem stepFrame_jsr (sf : StackFrame) (off : Nat) :
    stepFrame (.Jsr off) sf =
      .ok { sf with stack := .Reference (sf.pc + 1) :: sf.stack,
                    pc := usizeAdd sf.pc off } := rfl

/-- Frame-level effect of a taken `If` branch. -/
theorem stepFrame_if_taken (sf : StackFrame) (off : Nat) (c : Comparison) (v : Int)
    (s : List Primitive) (hst : sf.stack = .Int v :: s)
    (hcmp : Primitive.compare_to_zero (.Int v) c = .ok true) :
    stepFrame (.If off c) sf = .ok { sf with stack := s, pc := usizeAdd sf.pc off } := by
  obtain ⟨pc, lo, ar, st, me, cn⟩ := sf
  simp only at hst
  subst hst
  unfold stepFrame
  dsimp only [StackFrame.pop_primitive, bind, Except.bind]
  rw [hcmp]
  rfl

/-- Frame-level effect of a taken `IfICmp` branch. -/
theorem stepFrame_ificmp_taken (sf : StackFrame) (off : Nat) (c : Comparison) (v1 v2 : Int)
    (s : List Primitive) (hst : sf.stack = .Int v2 :: .Int v1 :: s)
    (hcmp : Primitive.integer_compare (.Int v1) (.Int v2) c = .ok true) :
    stepFrame (.IfICmp off c) sf = .ok { sf with stack := s, pc := usizeAdd sf.pc off } := by
  obtain ⟨pc, lo, ar, st, me, cn⟩ := sf
  simp only at hst
  subst hst
  unfold stepFrame
  dsimp only [StackFrame.pop_primitive, bind, Except.bind]
  rw [hcmp]
  rfl

/-- Frame-level effect of a taken `IfNull` branch. -/
theorem stepFrame_ifnull_taken (sf : StackFrame) (off : Nat) (s : List Primitive)
    (hst : sf.stack = .Null :: s) :
    stepFrame (.IfNull off) sf = .ok { sf with stack := s, pc := usizeAdd sf.pc off } := by
  obtain ⟨pc, lo, ar, st, me, cn⟩ := sf
  simp only at hst
  subst hst
  rfl

/-- Frame-level effect of a taken `IfNonNull` branch. -/
theorem stepFrame_ifnonnull_taken (sf : StackFrame) (off : Nat) (v : Primitive)
    (s : List Primitive) (hst : sf.stack = v :: s) (hv : v.is_type .Null = false) :
    stepFrame (.IfNonNull off) sf = .ok { sf with stack := s, pc := usizeAdd sf.pc off } := by
  obtain ⟨pc, lo, ar, st, me, cn⟩ := sf
  simp only at hst
  subst hst
  unfold stepFrame
  dsimp only [StackFrame.pop_primitive, bind, Except.bind]
  simp only [hv]
  rfl

/-- C3: for each branch instruction (`If`, `IfICmp`, `Goto`, `Jsr`,
`IfNull`, `IfNonNull`) whose 2-byte operand bytes `b1 b2` encode (via the
decoder's `u2`) a negative displacement `d = i16ofBytes b1 b2`, executing
the TAKEN branch sets the frame's `pc` to the branch instruction's
decoded slot index plus `d`, i.e. the `pc` moves backward by `|d|`: the
sign semantics survive `u2`'s unsigned (sign-extended) representation and
the interpreter's wrapping `pc += offset`. -/
theorem c3_backward_branch_sign_semantics :
    (∀ (jvm : Jvm) (sf : StackFrame) (rest : List StackFrame) (b1 b2 : Nat),
      jvm.stack_frames = sf :: rest →
      sf.method.instructions.get? sf.pc = some (.Goto (toUsize (i16ofBytes b1 b2))) →
      i16ofBytes b1 b2 < 0 → (i16ofBytes b1 b2).natAbs ≤ sf.pc → sf.pc < 2 ^ 64 →
      jvm.step = .ok { jvm with stack_frames :=
        { sf with pc := sf.pc - (i16ofBytes b1 b2).natAbs } :: rest }) ∧
    (∀ (jvm : Jvm) (sf : StackFrame) (rest : List StackFrame) (b1 b2 : Nat),
      jvm.stack_frames = sf :: rest →
      sf.method.instructions.get? sf.pc = some (.Jsr (toUsize (i16ofBytes b1 b2))) →
      i16ofBytes b1 b2 < 0 → (i16ofBytes b1 b2).natAbs ≤ sf.pc → sf.pc < 2 ^ 64 →
      jvm.step = .ok { jvm with stack_frames :=
        { sf with stack := .Reference (sf.pc + 1) :: sf.stack,
                  pc := sf.pc - (i16ofBytes b1 b2).natAbs } :: rest }) ∧
    (∀ (jvm : Jvm) (sf : StackFrame) (rest : List StackFrame) (b1 b2 : Nat)
      (c : Comparison) (v : Int) (s : List Primitive),
      jvm.stack_frames = sf :: rest →
      sf.method.instructions.get? sf.pc = some (.If (toUsize (i16ofBytes b1 b2)) c) →
      sf.stack = .Int v :: s →
      Primitive.compare_to_zero (.Int v) c = .ok true →
      i16ofBytes b1 b2 < 0 → (i16ofBytes b1 b2).natAbs ≤ sf.pc → sf.pc < 2 ^ 64 →
      jvm.step = .ok { jvm with stack_frames :=
        { sf with stack := s, pc := sf.pc - (i16ofBytes b1 b2).natAbs } :: rest }) ∧
    (∀ (jvm : Jvm) (sf : StackFrame) (rest : List StackFrame) (b1 b2 : Nat)
      (c : Comparison) (v1 v2 : Int) (s : List Primitive),
      jvm.stack_frames = sf :: rest →
      sf.method.instructions.get? sf.pc = some (.IfICmp (toUsize (i16ofBytes b1 b2)) c) →
      sf.stack = .Int v2 :: .Int v1 :: s →
      Primitive.integer_compare (.Int v1) (.Int v2) c = .ok true →
      i16ofBytes b1 b2 < 0 → (i16ofBytes b1 b2).natAbs ≤ sf.pc → sf.pc < 2 ^ 64 →
      jvm.step = .ok { jvm with stack_frames :=
        { sf with stack := s, pc := sf.pc - (i16ofBytes b1 b2).natAbs } :: rest }) ∧
    (∀ (jvm : Jvm) (sf : StackFrame) (rest : List StackFrame) (b1 b2 : Nat)
      (s : List Primitive),
      jvm.stack_frames = sf :: rest →
      sf.method.instructions.get? sf.pc = some (.IfNull (toUsize (i16ofBytes b1 b2))) →
      sf.stack = .Null :: s →
      i16ofBytes b1 b2 < 0 → (i16ofBytes b1 b2).natAbs ≤ sf.pc → sf.pc < 2 ^ 64 →
      jvm.step = .ok { jvm with stack_frames :=
        { sf with stack := s, pc := sf.pc - (i16ofBytes b1 b2).natAbs } :: rest }) ∧
    (∀ (jvm : Jvm) (sf : StackFrame) (rest : List StackFrame) (b1 b2 : Nat)
      (v : Primitive) (s : List Primitive),
      jvm.stack_frames = sf :: rest →
      sf.method.instructions.get? sf.pc = some (.IfNonNull (toUsize (i16ofBytes b1 b2))) →
      sf.stack = v :: s →
      v.is_type .Null = false →
      i16ofBytes b1 b2 < 0 → (i16ofBytes b1 b2).natAbs ≤ sf.pc → sf.pc < 2 ^ 64 →
      jvm.step = .ok { jvm with stack_frames :=
        { sf with stack := s, pc := sf.pc - (i16ofBytes b1 b2).natAbs } :: rest }) := by
  have key : ∀ (pc : Nat) (b1 b2 : Nat), i16ofBytes b1 b2 < 0 →
      (i16ofBytes b1 b2).natAbs ≤ pc → pc < 2 ^ 64 →
      usizeAdd pc (toUsize (i16ofBytes b1 b2)) = pc - (i16ofBytes b1 b2).natAbs := by
    intro pc b1 b2 hneg habs hpc
    exact usizeAdd_toUsize_neg pc _ (i16ofBytes_bounds b1 b2).1 hneg habs hpc
  refine ⟨?_, ?_, ?_, ?_, ?_, ?_⟩
  · intro jvm sf rest b1 b2 h₁ h₂ hneg habs hpc
    obtain ⟨ca, hp, fr, out⟩ := jvm
    simp only at h₁
    subst h₁
    obtain ⟨pc, lo, ar, st, me, cn⟩ := sf
    simp only at h₂ habs hpc ⊢
    unfold Jvm.step
    dsimp only
    rw [h₂]
    dsimp only
    rw [stepFrame_goto]
    dsimp only
    rw [key pc b1 b2 hneg habs hpc]
  · intro jvm sf rest b1 b2 h₁ h₂ hneg habs hpc
    obtain ⟨ca, hp, fr, out⟩ := jvm
    simp only at h₁
    subst h₁
    obtain ⟨pc, lo, ar, st, me, cn⟩ := sf
    simp only at h₂ habs hpc ⊢
    unfold Jvm.step
    dsimp only
    rw [h₂]
    dsimp only
    rw [stepFrame_jsr]
    dsimp only
    rw [key pc b1 b2 hneg habs hpc]
  · intro jvm sf rest b1 b2 c v s h₁ h₂ h₃ hcmp hneg habs hpc
    obtain ⟨ca, hp, fr, out⟩ := jvm
    simp only at h₁
    subst h₁
    obtain ⟨pc, lo, ar, st, me, cn⟩ := sf
    simp only at h₂ h₃ habs hpc ⊢
    subst h₃
    unfold Jvm.step
    dsimp only
    rw [h₂]
    dsimp only
    rw [stepFrame_if_taken _ _ _ v s rfl hcmp]
    dsimp only
    rw [key pc b1 b2 hneg habs hpc]
  · intro jvm sf rest b1 b2 c v1 v2 s h₁ h₂ h₃ hcmp hneg habs hpc
    obtain ⟨ca, hp, fr, out⟩ := jvm
    simp only at h₁
    subst h₁
    obtain ⟨pc, lo, ar, st, me, cn⟩ := sf
    simp only at h₂ h₃ habs hpc ⊢
    subst h₃
    unfold Jvm.step
    dsimp only
    rw [h₂]
    dsimp only
    rw [stepFrame_ificmp_taken _ _ _ v1 v2 s rfl hcmp]
    dsimp only
    rw [key pc b1 b2 hneg habs hpc]
  · intro jvm sf rest b1 b2 s h₁ h₂ h₃ hneg habs hpc
    obtain ⟨ca, hp, fr, out⟩ := jvm
    simp only at h₁
    subst h₁
    obtain ⟨pc, lo, ar, st, me, cn⟩ := sf
    simp only at h₂ h₃ habs hpc ⊢
    subst h₃
    unfold Jvm.step
    dsimp only
    rw [h₂]
    dsimp only
    rw [stepFrame_ifnull_taken _ _ s rfl]
    dsimp only
    rw [key pc b1 b2 hneg habs hpc]
  · intro jvm sf rest b1 b2 v s h₁ h₂ h₃ hv hneg habs hpc
    obtain ⟨ca, hp, fr, out⟩ := jvm
    simp only at h₁
    subst h₁
    obtain ⟨pc, lo, ar, st, me, cn⟩ := sf
    simp only at h₂ h₃ habs hpc ⊢
    subst h₃
    unfold Jvm.step
    dsimp only
    rw [h₂]
    dsimp only
    rw [stepFrame_ifnonnull_taken _ _ v s rfl hv]
    dsimp only
    rw [key pc b1 b2 hneg habs hpc]

/-- C3 witness: a `Goto` whose operand bytes `0xFF 0xFD` encode `-3`,
executed at slot 5, moves the program counter back to slot 2. -/
theorem c3_witness_goto_backward :
    Jvm.step (testJvm 5 c3Instrs []) = .ok (testJvm 2 c3Instrs []) :=
  c3_backward_branch_sign_semantics.1
    (testJvm 5 c3Instrs []) (testFrame 5 c3Instrs []) [] 255 253
    rfl rfl (by decide) (by decide) (by decide)

/-- C8 counterexample: in a state whose resolved invocation triple is
exactly `("java/io/PrintStream", "println", "(I)V")` but where a class
named `java/io/PrintStream` happens to be PRESENT in the class area, the
interpreter does not run the intrinsic: it pushes a callee frame (two
frames afterwards) and appends nothing to the stdout buffer, contrary to
the claim's "consume the top Int, append its decimal representation, push
no new frame". -/
theorem c8_counterexample_loaded_printstream :
    resolve_method_ref cpPrintln 6 = some ("java/io/PrintStream", "println", "(I)V") ∧
    Jvm.step c8CexJvm = .ok c8CexJvmOut ∧
    c8CexJvmOut.stack_frames.length = 2 ∧
    c8CexJvmOut.stdout = "" :=
  ⟨rfl, by rfl, rfl, rfl⟩

/-- C8 (amended): whenever the resolved invocation triple is
`("java/io/PrintStream", "println", "(I)V")` AND the owner class is
absent from the class area, the interpreter consumes the top `Int`,
appends its decimal representation to the stdout buffer, also pops the
receiver reference, and pushes no new frame, resuming at the instruction
after the invoke. -/
theorem c8_println_intrinsic (jvm : Jvm) (sf : StackFrame) (rest : List StackFrame)
    (cls : Class) (idx : Nat) (n : Int) (v2 : Primitive) (s : List Primitive)
    (hframes : jvm.stack_frames = sf :: rest)
    (hinst : sf.method.instructions.get? sf.pc = some (.InvokeVirtual idx) ∨
             sf.method.instructions.get? sf.pc = some (.InvokeSpecial idx))
    (hcls : jvm.class_area.lookup sf.class_name = some cls)
    (hres : resolve_method_ref cls.constant_pool idx =
      some ("java/io/PrintStream", "println", "(I)V"))
    (habsent : jvm.class_area.lookup "java/io/PrintStream" = none)
    (hstack : sf.stack = .Int n :: v2 :: s) :
    jvm.step = .ok { jvm with
      stdout := jvm.stdout ++ toString n,
      stack_frames := { sf with stack := s, pc := sf.pc + 1 } :: rest } := by
  obtain ⟨ca, hp, fr, out⟩ := jvm
  simp only at hframes hcls habsent
  subst hframes
  obtain ⟨pc, lo, ar, st, me, cn⟩ := sf
  simp only at hcls hstack ⊢
  subst hstack
  rcases hinst with h₂ | h₂ <;>
  · simp only at h₂
    unfold Jvm.step
    dsimp only
    rw [h₂]
    dsimp only
    rw [hcls]
    dsimp only
    rw [hres]
    dsimp only
    rw [habsent]
    rfl

/-- C8 witness: at the concrete state `printlnJvm` (owner class absent,
argument `Int 42` above a receiver) the step appends "42", pops both
values and pushes no frame. -/
theorem c8_witness_println_42 :
    Jvm.step printlnJvm = .ok printlnJvmOut :=
  c8_println_intrinsic printlnJvm printlnFrame [] mainClassPrintln 6 42 (.Reference 0) []
    rfl (Or.inl rfl) rfl rfl rfl rfl

/-- C10 counterexample: an `InvokeVirtual` whose resolved owner class
(`Foo`) is absent from the class area and whose method name is `println`,
executed with an EMPTY operand stack, makes the step return an error
("Stack is empty"), contrary to the claim that such a step never returns
an error. -/
theorem c10_counterexample_empty_stack :
    resolve_method_ref cpFooPrintln 6 = some ("Foo", "println", "()V") ∧
    Jvm.step c10CexJvm = .error "Stack is empty" :=
  ⟨rfl, rfl⟩

/-- C10 (amended): for an `InvokeVirtual`/`InvokeSpecial` whose resolved
owner class is absent from the class area: when the resolved name is not
`println`, the step never errors, attempts one pop (`Vec::pop`, which
pops one value when the stack is nonempty and nothing otherwise) and
resumes at the next instruction without pushing a frame; when the name is
`println` and the stack is nonempty, the top value's decimal
(pretty-printed) representation is appended to the stdout buffer, one
additional pop is attempted, and the step likewise succeeds without
pushing a frame. -/
theorem c10_missing_owner_no_error :
    (∀ (jvm : Jvm) (sf : StackFrame) (rest : List StackFrame) (cls : Class) (idx : Nat)
      (owner mname mdesc : String),
      jvm.stack_frames = sf :: rest →
      (sf.method.instructions.get? sf.pc = some (.InvokeVirtual idx) ∨
       sf.method.instructions.get? sf.pc = some (.InvokeSpecial idx)) →
      jvm.class_area.lookup sf.class_name = some cls →
      resolve_method_ref cls.constant_pool idx = some (owner, mname, mdesc) →
      jvm.class_area.lookup owner = none →
      mname ≠ "println" →
      jvm.step = .ok { jvm with stack_frames :=
        { sf with stack := sf.stack.tail, pc := sf.pc + 1 } :: rest }) ∧
    (∀ (jvm : Jvm) (sf : StackFrame) (rest : List StackFrame) (cls : Class) (idx : Nat)
      (owner mdesc : String) (v : Primitive) (s : List Primitive),
      jvm.stack_frames = sf :: rest →
      (sf.method.instructions.get? sf.pc = some (.InvokeVirtual idx) ∨
       sf.method.instructions.get? sf.pc = some (.InvokeSpecial idx)) →
      jvm.class_area.lookup sf.class_name = some cls →
      resolve_method_ref cls.constant_pool idx = some (owner, "println", mdesc) →
      jvm.class_area.lookup owner = none →
      sf.stack = v :: s →
      jvm.step = .ok { jvm with
        stdout := jvm.stdout ++ v.pretty_print,
        stack_frames := { sf with stack := s.tail, pc := sf.pc + 1 } :: rest }) := by
  constructor
  · intro jvm sf rest cls idx owner mname mdesc hframes hinst hcls hres habsent hnp
    obtain ⟨ca, hp, fr, out⟩ := jvm
    simp only at hframes hcls habsent
    subst hframes
    obtain ⟨pc, lo, ar, st, me, cn⟩ := sf
    simp only at hcls ⊢
    rcases hinst with h₂ | h₂ <;>
    · simp only at h₂
      unfold Jvm.step
      dsimp only
      rw [h₂]
      dsimp only
      rw [hcls]
      dsimp only
      rw [hres]
      dsimp only
      rw [habsent]
      dsimp only
      rw [if_neg hnp]
  · intro jvm sf rest cls idx owner mdesc v s hframes hinst hcls hres habsent hstack
    obtain ⟨ca, hp, fr, out⟩ := jvm
    simp only at hframes hcls habsent
    subst hframes
    obtain ⟨pc, lo, ar, st, me, cn⟩ := sf
    simp only at hcls hstack ⊢
    subst hstack
    rcases hinst with h₂ | h₂ <;>
    · simp only at h₂
      unfold Jvm.step
      dsimp only
      rw [h₂]
      dsimp only
      rw [hcls]
      dsimp only
      rw [hres]
      dsimp only
      rw [habsent]
      rfl

/-- C10 witness: the non-`println` missing-owner case at a concrete
state with an empty stack still succeeds, pops nothing and pushes no
frame. -/
theorem c10_witness_missing_owner :
    Jvm.step c10WitJvm = .ok c10WitJvmOut :=
  c10_missing_owner_no_error.1 c10WitJvm c10WitFrame [] mainClassFooBar 6
    "Foo" "bar" "()V" rfl (Or.inl rfl) rfl rfl rfl (by decide)

set_option maxHeartbeats 1600000 in
/-- Per-instruction heap effect of one successful step: the heap is
unchanged, or the current instruction is `New` and the heap is the old
heap with one object appended, or the current instruction is `PutField`
and the heap is the old heap with one existing object's field map
updated (its class name untouched). -/
theorem step_heap_effect (jvm jvm' : Jvm) (h : jvm.step = .ok jvm') :
    (∃ idx o, currInstr jvm = some (.New idx) ∧ jvm'.heap = jvm.heap ++ [o]) ∨
    (∃ idx r o fname v, currInstr jvm = some (.PutField idx) ∧ jvm.heap.get? r = some o ∧
      jvm'.heap = jvm.heap.set r ⟨o.class_name, insertAssoc fname v o.fields⟩) ∨
    jvm'.heap = jvm.heap := by
  obtain ⟨ca, hp, fr, out⟩ := jvm
  cases fr with
  | nil =>
    unfold Jvm.step at h
    exact Except.noConfusion h
  | cons sf rest =>
    rcases hinst : sf.method.instructions.get? sf.pc with _ | instr
    · unfold Jvm.step at h
      dsimp only at h
      rw [hinst] at h
      exact Except.noConfusion h
    · unfold Jvm.step at h
      dsimp only at h
      rw [hinst] at h
      have hcur : currInstr ⟨ca, hp, sf :: rest, out⟩ = some instr := by
        unfold currInstr
        dsimp only
        exact hinst
      cases instr <;>
        (try (dsimp only at h)) <;>
        (repeat' (split at h)) <;>
        first
          | exact Except.noConfusion h
          | (injection h with h; subst h; exact Or.inr (Or.inr rfl))
          | (injection h with h; subst h; exact Or.inl ⟨_, _, hcur, rfl⟩)
          | (injection h with h; subst h;
             exact Or.inr (Or.inl ⟨_, _, _, _, _, hcur, by assumption, rfl⟩))

/-- C9: every successful step keeps the heap append-only: the heap's
length never decreases, every existing index keeps denoting an object of
the same class name, and the only possible changes are a single appended
object under `New` and a single field-map update of an existing object
under `PutField` (all other instructions leave the heap untouched). -/
theorem c9_heap_append_only (jvm jvm' : Jvm) (h : jvm.step = .ok jvm') :
    jvm.heap.length ≤ jvm'.heap.length ∧
    (∀ i o, jvm.heap.get? i = some o →
      ∃ o', jvm'.heap.get? i = some o' ∧ o'.class_name = o.class_name) ∧
    ((∃ idx o, currInstr jvm = some (.New idx) ∧ jvm'.heap = jvm.heap ++ [o]) ∨
     (∃ idx r o fname v, currInstr jvm = some (.PutField idx) ∧ jvm.heap.get? r = some o ∧
       jvm'.heap = jvm.heap.set r ⟨o.class_name, insertAssoc fname v o.fields⟩) ∨
     jvm'.heap = jvm.heap) := by
  have D := step_heap_effect jvm jvm' h
  refine ⟨?_, ?_, D⟩
  · rcases D with ⟨idx, o, _, hD⟩ | ⟨idx, r, o, fname, v, _, hget, hD⟩ | hD <;>
      rw [hD] <;> simp
  · intro i o hi
    rcases D with ⟨idx, o₀, _, hD⟩ | ⟨idx, r, o₀, fname, v, _, hget, hD⟩ | hD
    · refine ⟨o, ?_, rfl⟩
      obtain ⟨hlt, -⟩ := List.get?_eq_some.mp hi
      rw [hD, List.get?_append hlt]
      exact hi
    · by_cases hir : i = r
      · subst hir
        rw [hi] at hget
        have ho : o = o₀ := Option.some.inj hget
        subst ho
        obtain ⟨hlt, -⟩ := List.get?_eq_some.mp hi
        refine ⟨⟨o.class_name, insertAssoc fname v o.fields⟩, ?_, rfl⟩
        rw [hD, List.get?_set_eq_of_lt _ hlt]
      · refine ⟨o, ?_, rfl⟩
        rw [hD, List.get?_set_ne _ _ (fun hh => hir hh.symm)]
        exact hi
    · exact ⟨o, hD ▸ hi, rfl⟩

/-- C9 witness: one concrete `Nop` step leaves the one-object heap
exactly in place. -/
theorem c9_witness_nop_step :
    (heapNopJvm.heap.length ≤ heapNopJvmOut.heap.length ∧
      (∀ i o, heapNopJvm.heap.get? i = some o →
        ∃ o', heapNopJvmOut.heap.get? i = some o' ∧ o'.class_name = o.class_name) ∧
      ((∃ idx o, currInstr heapNopJvm = some (.New idx) ∧
          heapNopJvmOut.heap = heapNopJvm.heap ++ [o]) ∨
       (∃ idx r o fname v, currInstr heapNopJvm = some (.PutField idx) ∧
          heapNopJvm.heap.get? r = some o ∧
          heapNopJvmOut.heap = heapNopJvm.heap.set r
            ⟨o.class_name, insertAssoc fname v o.fields⟩) ∨
       heapNopJvmOut.heap = heapNopJvm.heap)) :=
  c9_heap_append_only heapNopJvm heapNopJvmOut rfl

/-- A successful `decodeOp` keeps both the opcode byte and all its
operand bytes inside the code vector. -/
theorem decodeOp_bounds {code : List Nat} {pc : Nat} {i : Instruction} {extra : Nat}
    (h : decodeOp code pc = .ok (i, extra)) :
    pc < code.length ∧ pc + extra < code.length := by
  unfold decodeOp at h
  rcases hb : code.get? pc with _ | b
  · rw [hb] at h
    exact Except.noConfusion h
  · rw [hb] at h
    dsimp only at h
    split at h
    · split at h
      · injection h with h'
        injection h' with h₁ h₂
        subst h₂
        exact ⟨by obtain ⟨hlt, -⟩ := List.get?_eq_some.mp hb; exact hlt, by assumption⟩
      · exact Except.noConfusion h
    · exact Except.noConfusion h

/-- The decoding loop only moves forward. -/
theorem OpcodeStart_le {code : List Nat} {pc k : Nat} (h : OpcodeStart code pc k) :
    pc ≤ k := by
  induction h with
  | refl pc => exact Nat.le_refl pc
  | step h₁ h₂ ih => omega

/-- A successful decoding loop run over `code[pc..]` produces exactly
`code.length - pc` decoded slots (one per input byte). -/
theorem decodeLoop_length {code : List Nat} :
    ∀ (fuel pc : Nat) (l : List Instruction), code.length ≤ pc + fuel →
      decodeLoop code pc fuel = .ok l → l.length = code.length - pc := by
  intro fuel
  induction fuel with
  | zero =>
    intro pc l hle h
    unfold decodeLoop at h
    split at h
    · exact Except.noConfusion h
    · injection h with h
      subst h
      simp
      omega
  | succ fuel ih =>
    intro pc l hle h
    unfold decodeLoop at h
    split at h
    · rcases hop : decodeOp code pc with e | ie
      · rw [hop] at h
        exact Except.noConfusion h
      · obtain ⟨i, extra⟩ := ie
        rw [hop] at h
        dsimp only at h
        rcases hrec : decodeLoop code (pc + 1 + extra) fuel with e | rest
        · rw [hrec] at h
          exact Except.noConfusion h
        · rw [hrec] at h
          dsimp only at h
          injection h with h
          subst h
          have hb := decodeOp_bounds hop
          have hr := ih (pc + 1 + extra) rest (by omega) hrec
          simp [hr]
          omega
    · injection h with h
      subst h
      simp
      omega

/-- Index arithmetic for one decoded block: the slot right at the block
start holds the instruction. -/
theorem block_get_zero (i₀ : Instruction) (e : Nat) (rest : List Instruction) :
    (i₀ :: (List.replicate e Instruction.Nop ++ rest)).get? 0 = some i₀ := rfl

/-- Index arithmetic for one decoded block: the `e` slots after the block
start hold `Nop`. -/
theorem block_get_pad (i₀ : Instruction) (e : Nat) (rest : List Instruction) (j : Nat)
    (h₁ : 1 ≤ j) (h₂ : j ≤ e) :
    (i₀ :: (List.replicate e Instruction.Nop ++ rest)).get? j = some Instruction.Nop := by
  rcases Nat.exists_eq_add_of_le h₁ with ⟨j₂, rfl⟩
  rw [show 1 + j₂ = j₂ + 1 by omega, List.get?_cons_succ,
    List.get?_append (by simp; omega), List.get?_eq_getElem?, List.getElem?_replicate]
  rw [if_pos (by omega)]

/-- Index arithmetic for one decoded block: indices past the block fall
through to the rest of the output. -/
theorem block_get_shift (i₀ : Instruction) (e m : Nat) (rest : List Instruction) :
    (i₀ :: (List.replicate e Instruction.Nop ++ rest)).get? (1 + e + m) = rest.get? m := by
  rw [show 1 + e + m = (e + m) + 1 by omega, List.get?_cons_succ,
    List.get?_append_right (by simp)]
  simp

/-- Every opcode reachable by the decoding loop lands in its own output
slot, with its operand bytes padded by `Nop`. -/
theorem decodeLoop_slots {code : List Nat} :
    ∀ (fuel pc : Nat) (l : List Instruction), code.length ≤ pc + fuel →
      decodeLoop code pc fuel = .ok l →
      ∀ k, OpcodeStart code pc k → ∀ i extra, decodeOp code k = .ok (i, extra) →
        l.get? (k - pc) = some i ∧
        ∀ j, 1 ≤ j → j ≤ extra → l.get? (k - pc + j) = some Instruction.Nop := by
  intro fuel
  induction fuel with
  | zero =>
    intro pc l hle h k hstart i extra hop
    exfalso
    have h₁ := OpcodeStart_le hstart
    have h₂ := (decodeOp_bounds hop).1
    omega
  | succ fuel ih =>
    intro pc l hle h k hstart i extra hop
    unfold decodeLoop at h
    split at h
    · rcases hop₀ : decodeOp code pc with e | ie
      · rw [hop₀] at h
        exact Except.noConfusion h
      · obtain ⟨i₀, extra₀⟩ := ie
        rw [hop₀] at h
        dsimp only at h
        rcases hrec : decodeLoop code (pc + 1 + extra₀) fuel with e | rest
        · rw [hrec] at h
          exact Except.noConfusion h
        · rw [hrec] at h
          dsimp only at h
          injection h with h
          subst h
          cases hstart with
          | refl =>
            rw [hop] at hop₀
            injection hop₀ with hpair
            injection hpair with hi he
            subst hi
            subst he
            constructor
            · rw [Nat.sub_self]
              exact block_get_zero i extra rest
            · intro j hj₁ hj₂
              rw [Nat.sub_self, Nat.zero_add]
              exact block_get_pad i extra rest j hj₁ hj₂
          | step hop₁ hstart₂ =>
            rw [hop₀] at hop₁
            injection hop₁ with hpair
            injection hpair with hi he
            subst hi
            subst he
            have hb := decodeOp_bounds hop₀
            have hk := OpcodeStart_le hstart₂
            have hr := ih (pc + 1 + extra₀) rest (by omega) hrec k hstart₂ i extra hop
            constructor
            · rw [show k - pc = 1 + extra₀ + (k - (pc + 1 + extra₀)) by omega,
                block_get_shift]
              exact hr.1
            · intro j hj₁ hj₂
              rw [show k - pc + j = 1 + extra₀ + (k - (pc + 1 + extra₀) + j) by omega,
                block_get_shift]
              exact hr.2 j hj₁ hj₂
    · exfalso
      have h₁ := OpcodeStart_le hstart
      have h₂ := (decodeOp_bounds hop).1
      omega

/-- C1, amended: on every byte vector that DECODES SUCCESSFULLY (no
unsupported opcode, no operand running past the end of the stream),
`bytes_to_bytecode` returns an instruction vector of exactly `code.len()`
elements in which, for every opcode whose first byte is at offset `k` and
whose encoding occupies `1 + extra` bytes, slot `k` holds the decoded
instruction and each of the `extra` slots `k+1 .. k+extra` holds `Nop`. -/
theorem c1_decoder_length_and_padding (code : List Nat) (instrs : List Instruction)
    (h : bytes_to_bytecode code = .ok instrs) :
    instrs.length = code.length ∧
    (∀ k i extra, OpcodeStart code 0 k → decodeOp code k = .ok (i, extra) →
      instrs.get? k = some i ∧
      ∀ j, 1 ≤ j → j ≤ extra → instrs.get? (k + j) = some Instruction.Nop) := by
  unfold bytes_to_bytecode at h
  constructor
  · have := decodeLoop_length code.length 0 instrs (by omega) h
    omega
  · intro k i extra hstart hop
    have hs := decodeLoop_slots code.length 0 instrs (by omega) h k hstart i extra hop
    rw [Nat.sub_zero] at hs
    exact hs

/-- C1 witness: for the byte vector `[4, 153, 0, 3, 177]`
(`iconst_1; ifeq +3; return`) the decoder yields five slots; the `ifeq`
at offset 1 occupies three bytes, so slot 1 holds the decoded branch and
slots 2 and 3 hold `Nop`. -/
theorem c1_witness_ifeq_padding :
    bytes_to_bytecode [4, 153, 0, 3, 177] =
      .ok [.Const (.Int 1), .If 3 .Equal, .Nop, .Nop, .Return .Null] ∧
    ([Instruction.Const (.Int 1), .If 3 .Equal, .Nop, .Nop, .Return .Null].length = 5 ∧
     [Instruction.Const (.Int 1), .If 3 .Equal, .Nop, .Nop,
       .Return .Null].get? 1 = some (.If 3 .Equal) ∧
     [Instruction.Const (.Int 1), .If 3 .Equal, .Nop, .Nop,
       .Return .Null].get? 2 = some .Nop ∧
     [Instruction.Const (.Int 1), .If 3 .Equal, .Nop, .Nop,
       .Return .Null].get? 3 = some .Nop) := by
  have h : bytes_to_bytecode [4, 153, 0, 3, 177] =
      .ok [.Const (.Int 1), .If 3 .Equal, .Nop, .Nop, .Return .Null] := by rfl
  have hmain := c1_decoder_length_and_padding [4, 153, 0, 3, 177]
    [.Const (.Int 1), .If 3 .Equal, .Nop, .Nop, .Return .Null] h
  have hstart : OpcodeStart [4, 153, 0, 3, 177] 0 1 :=
    @OpcodeStart.step [4, 153, 0, 3, 177] 0 1 (.Const (.Int 1)) 0 rfl (.refl 1)
  have hslot := hmain.2 1 (.If 3 .Equal) 2 hstart rfl
  exact ⟨h, hmain.1, hslot.1, hslot.2 1 (by omega) (by omega),
    hslot.2 2 (by omega) (by omega)⟩

/-- C1 counterexample: on the byte vector `[170]` (the unsupported
`tableswitch` opcode) the decoder does not return an instruction vector
at all, so the claim's unconditional "for every byte vector the decoder
returns a vector of the same length" is false as stated. -/
theorem c1_counterexample_unsupported_opcode :
    bytes_to_bytecode [170] = .error "Unsupported instruction: 170" := rfl

end RustJava
